import Mathlib

/-!
# MRUDA analytics pipeline — formal model and verification

A shallow embedding of the MRUDA advertising-analytics core
(normalizer, KPI engine, trend engine, fatigue engine, opportunity
engine, confidence scorer, risk detection) and proofs about it.

Modelling conventions:

* Python floats are modelled as exact rationals (`ℚ`); the Python
  built-in `round` (round-half-to-even) is modelled exactly on `ℚ` by
  `pyRound`.
* Python dicts are modelled as insertion-ordered association lists
  (`List (K × V)`); `dset` overwrites the first occurrence of a key or
  appends at the end, which coincides with dict semantics because dict
  keys are unique, and `dadd` models `defaultdict(float)` accumulation.
* The SQL metric store (table `normalized_metrics`) is modelled as a
  `List NormalizedMetric` in insertion order; row filters model the
  `WHERE` clauses, and date comparison on ISO `YYYY-MM-DD` strings is
  lexicographic, as for SQL TEXT columns.
* Auto-generated columns (`id`, `updated_at`) and human-readable
  description strings built with float format specifiers are not
  modelled; no claim refers to them.
-/

attribute [local semireducible] Rat.add Rat.mul Rat.inv Rat.sub

set_option maxRecDepth 8000

/-! ## Dictionaries as insertion-ordered association lists -/

/-- Lookup (`d.get(k)`), first occurrence of the key. -/
def dfind {K V : Type} [DecidableEq K] : List (K × V) → K → Option V
  | [], _ => none
  | p :: d, k => if p.1 = k then some p.2 else dfind d k

/-- Lookup with default, as in `d.get(k, dflt)`. -/
def dget {K V : Type} [DecidableEq K] (d : List (K × V)) (k : K) (dflt : V) : V :=
  (dfind d k).getD dflt

/-- Key membership, as in `k in d`. -/
def dmem {K V : Type} [DecidableEq K] (d : List (K × V)) (k : K) : Bool :=
  (dfind d k).isSome

/-- `d[k] = v`: overwrite the (unique) occurrence of the key in place,
or append at the end (Python dict insertion-order semantics). -/
def dset {K V : Type} [DecidableEq K] : List (K × V) → K → V → List (K × V)
  | [], k, v => [(k, v)]
  | p :: d, k, v => if p.1 = k then (k, v) :: d else p :: dset d k v

/-- `d[k] += v` over a `defaultdict(float)`. -/
def dadd {K : Type} [DecidableEq K] : List (K × ℚ) → K → ℚ → List (K × ℚ)
  | [], k, v => [(k, v)]
  | p :: d, k, v => if p.1 = k then (p.1, p.2 + v) :: d else p :: dadd d k v

/-- The keys of a dictionary, in insertion order. -/
def keysD {K V : Type} (d : List (K × V)) : List K := d.map Prod.fst

theorem dmem_iff_keys {K V : Type} [DecidableEq K] (d : List (K × V)) (k : K) :
    dmem d k = true ↔ k ∈ keysD d := by
  induction d with
  | nil => simp [dmem, dfind, keysD]
  | cons p d ih =>
    by_cases h : p.1 = k
    · simp [dmem, dfind, keysD, h]
    · have h1 : dmem (p :: d) k = dmem d k := by simp [dmem, dfind, h]
      have h2 : (k ∈ keysD (p :: d)) ↔ k ∈ keysD d := by
        have hc : keysD (p :: d) = p.1 :: keysD d := rfl
        rw [hc, List.mem_cons]
        constructor
        · rintro (he | hk)
          · exact absurd he.symm h
          · exact hk
        · exact Or.inr
      rw [h1, h2]
      exact ih

theorem dfind_dset_self {K V : Type} [DecidableEq K] (d : List (K × V)) (k : K) (v : V) :
    dfind (dset d k v) k = some v := by
  induction d with
  | nil => simp [dset, dfind]
  | cons p d ih =>
    by_cases h : p.1 = k
    · simp [dset, dfind, h]
    · simp [dset, dfind, h, ih]

theorem dfind_dset_other {K V : Type} [DecidableEq K] (d : List (K × V)) (k k' : K) (v : V)
    (h : k ≠ k') : dfind (dset d k v) k' = dfind d k' := by
  induction d with
  | nil => simp [dset, dfind, h]
  | cons p d ih =>
    by_cases hp : p.1 = k
    · simp [dset, dfind, hp, h, hp ▸ h]
    · by_cases hp' : p.1 = k'
      · simp [dset, dfind, hp, hp', Ne.symm h]
      · simp [dset, dfind, hp, hp', ih]

theorem keysD_dset {K V : Type} [DecidableEq K] (d : List (K × V)) (k : K) (v : V) :
    keysD (dset d k v) = if dmem d k then keysD d else keysD d ++ [k] := by
  induction d with
  | nil => simp [dset, dmem, dfind, keysD]
  | cons p d ih =>
    by_cases h : p.1 = k
    · simp [dset, dmem, dfind, keysD, h]
    · have hs : dset (p :: d) k v = p :: dset d k v := by simp [dset, h]
      have hm : dmem (p :: d) k = dmem d k := by simp [dmem, dfind, h]
      rw [hs, hm]
      have hk : keysD (p :: dset d k v) = p.1 :: keysD (dset d k v) := rfl
      have hk2 : keysD (p :: d) = p.1 :: keysD d := rfl
      rw [hk, hk2, ih]
      by_cases hm2 : dmem d k <;> simp [hm2]

theorem keysD_dadd {K : Type} [DecidableEq K] (d : List (K × ℚ)) (k : K) (v : ℚ) :
    keysD (dadd d k v) = if dmem d k then keysD d else keysD d ++ [k] := by
  induction d with
  | nil => simp [dadd, dmem, dfind, keysD]
  | cons p d ih =>
    by_cases h : p.1 = k
    · simp [dadd, dmem, dfind, keysD, h]
    · have hs : dadd (p :: d) k v = p :: dadd d k v := by simp [dadd, h]
      have hm : dmem (p :: d) k = dmem d k := by simp [dmem, dfind, h]
      rw [hs, hm]
      have hk : keysD (p :: dadd d k v) = p.1 :: keysD (dadd d k v) := rfl
      have hk2 : keysD (p :: d) = p.1 :: keysD d := rfl
      rw [hk, hk2, ih]
      by_cases hm2 : dmem d k <;> simp [hm2]

/-- On a dictionary whose keys are distinct, a member pair is found by
lookup on its key. -/
theorem dfind_of_mem_nodup {K V : Type} [DecidableEq K] (d : List (K × V)) (p : K × V)
    (hnd : (keysD d).Nodup) (hp : p ∈ d) : dfind d p.1 = some p.2 := by
  induction d with
  | nil => simp at hp
  | cons q d ih =>
    simp only [keysD, List.map_cons, List.nodup_cons] at hnd
    rcases List.mem_cons.mp hp with h1 | h1
    · subst h1
      simp [dfind]
    · have hq : q.1 ≠ p.1 := by
        intro hc
        exact hnd.1 (hc ▸ (List.mem_map.mpr ⟨p, h1, rfl⟩))
      simp only [dfind, hq, if_neg hq]
      exact ih hnd.2 h1

/-! ## Python `round` — round-half-to-even on exact rationals -/

/-- `round(q)` to an integer, Python semantics (round-half-to-even). -/
def pyRoundInt (q : ℚ) : ℤ :=
  let f : ℤ := Rat.floor q
  let r := q - (f : ℚ)
  if r < 1/2 then f
  else if r > 1/2 then f + 1
  else if f % 2 = 0 then f else f + 1

/-- `round(q, n)`, Python semantics on exact rationals. -/
def pyRound (q : ℚ) (n : ℕ) : ℚ := (pyRoundInt (q * 10 ^ n) : ℚ) / 10 ^ n

theorem ratFloor_eq_floor (q : ℚ) : Rat.floor q = ⌊q⌋ := by
  rw [Rat.floor_def, Rat.floor_def']

theorem pyRoundInt_nonneg {q : ℚ} (h : 0 ≤ q) : 0 ≤ pyRoundInt q := by
  unfold pyRoundInt
  have hf : (0 : ℤ) ≤ Rat.floor q := by
    rw [ratFloor_eq_floor]
    exact Int.le_floor.mpr (by exact_mod_cast h)
  dsimp only
  split
  · exact hf
  · split
    · omega
    · split
      · exact hf
      · omega

theorem pyRoundInt_le {q : ℚ} {N : ℤ} (h : q ≤ (N : ℚ)) : pyRoundInt q ≤ N := by
  unfold pyRoundInt
  have hf : Rat.floor q ≤ N := by
    rw [ratFloor_eq_floor]
    calc ⌊q⌋ ≤ ⌊(N : ℚ)⌋ := Int.floor_le_floor h
    _ = N := Int.floor_intCast N
  dsimp only
  by_cases heq : Rat.floor q = N
  · have hr : q - ((Rat.floor q : ℤ) : ℚ) ≤ 0 := by
      rw [heq]
      simpa using h
    have hlt : q - ((Rat.floor q : ℤ) : ℚ) < 1/2 := lt_of_le_of_lt hr (by norm_num)
    simp only [hlt, if_pos]
    exact hf
  · have h1 : Rat.floor q + 1 ≤ N := by omega
    split
    · exact hf
    · split
      · exact h1
      · split
        · exact hf
        · exact h1

theorem pyRound_zero (n : ℕ) : pyRound 0 n = 0 := by
  unfold pyRound pyRoundInt
  norm_num [ratFloor_eq_floor]

/-- Rounding keeps a value of `[0,1]` inside `[0,1]`. -/
theorem pyRound_mem_unit {q : ℚ} (n : ℕ) (h0 : 0 ≤ q) (h1 : q ≤ 1) :
    0 ≤ pyRound q n ∧ pyRound q n ≤ 1 := by
  unfold pyRound
  have hp : (0 : ℚ) < 10 ^ n := by positivity
  constructor
  · apply div_nonneg _ (le_of_lt hp)
    exact_mod_cast pyRoundInt_nonneg (by positivity)
  · rw [div_le_one hp]
    have hq : q * 10 ^ n ≤ ((10 ^ n : ℤ) : ℚ) := by
      push_cast
      nlinarith
    exact_mod_cast pyRoundInt_le hq

/-! ## String comparison (lexicographic, as for SQL TEXT columns) -/

/-- Lexicographic strict order on character lists by code point. -/
def strLtB : List Char → List Char → Bool
  | [], [] => false
  | [], _ :: _ => true
  | _ :: _, [] => false
  | a :: as, b :: bs =>
    if a.val < b.val then true
    else if b.val < a.val then false
    else strLtB as bs

/-- `a <= b` on strings; on ISO dates this is chronological order. -/
def strLe (a b : String) : Bool := a == b || strLtB a.data b.data

/-! ## Calendar dates

`datetime.strptime(s, "%Y-%m-%d")` / `timedelta` arithmetic is modelled
by converting a well-formed ISO date to its proleptic-Gregorian day
number and back (standard civil-from-days algorithm).  Malformed dates
(which would raise in the source) are mapped to day 0; the pipeline
only passes validated dates here. -/

/-- Day number of a civil date (proleptic Gregorian). -/
def daysFromCivil (y m d : ℤ) : ℤ :=
  let y2 := if m ≤ 2 then y - 1 else y
  let era := (if 0 ≤ y2 then y2 else y2 - 399) / 400
  let yoe := y2 - era * 400
  let mp := (m + 9) % 12
  let doy := (153 * mp + 2) / 5 + d - 1
  let doe := yoe * 365 + yoe / 4 - yoe / 100 + doy
  era * 146097 + doe

/-- Civil date `(y, m, d)` of a day number. -/
def civilFromDays (z : ℤ) : ℤ × ℤ × ℤ :=
  let era := (if 0 ≤ z then z else z - 146096) / 146097
  let doe := z - era * 146097
  let yoe := (doe - doe / 1460 + doe / 36524 - doe / 146096) / 365
  let y := yoe + era * 400
  let doy := doe - (365 * yoe + yoe / 4 - yoe / 100)
  let mp := (5 * doy + 2) / 153
  let d := doy - (153 * mp + 2) / 5 + 1
  let m := mp + (if mp < 10 then 3 else -9)
  (if m ≤ 2 then y + 1 else y, m, d)

/-- Split a character list on the dash character. -/
def splitDash : List Char → List Char → List (List Char)
  | [], acc => [acc.reverse]
  | c :: cs, acc =>
    if c = '-' then acc.reverse :: splitDash cs []
    else splitDash cs (c :: acc)

/-- Numeric value of a digit string. -/
def digitsVal (l : List Char) : ℕ := l.foldl (fun n c => n * 10 + (c.toNat - 48)) 0

/-- Day number of an ISO `YYYY-MM-DD` string. -/
def parseDateDays (s : String) : ℤ :=
  match splitDash s.data [] with
  | [ys, ms, ds] => daysFromCivil (digitsVal ys) (digitsVal ms) (digitsVal ds)
  | _ => 0

/-- Decimal digits of a positive natural number (fuel-based). -/
def natDigits : ℕ → ℕ → List Char
  | 0, _ => []
  | _ + 1, 0 => []
  | fuel + 1, n => natDigits fuel (n / 10) ++ [Char.ofNat (48 + n % 10)]

/-- Zero-padded decimal rendering of a nonnegative integer. -/
def padNum (n : ℤ) (w : ℕ) : String :=
  let digits := if n.toNat = 0 then ['0'] else natDigits 8 n.toNat
  String.mk (List.replicate (w - digits.length) '0' ++ digits)

/-- ISO `YYYY-MM-DD` string of a day number. -/
def formatCivil (z : ℤ) : String :=
  let c := civilFromDays z
  padNum c.1 4 ++ "-" ++ padNum c.2.1 2 ++ "-" ++ padNum c.2.2 2

/-- Previous period of equal length (`trend_engine._compute_date_ranges`). -/
def _compute_date_ranges (date_start date_stop : String) : String × String :=
  let start := parseDateDays date_start
  let stop := parseDateDays date_stop
  let period_days := stop - start + 1
  let prev_stop := start - 1
  let prev_start := prev_stop - (period_days - 1)
  (formatCivil prev_start, formatCivil prev_stop)

example : _compute_date_ranges "2024-01-08" "2024-01-14" = ("2024-01-01", "2024-01-07") := by decide
example : _compute_date_ranges "2024-03-01" "2024-03-01" = ("2024-02-29", "2024-02-29") := by decide

/-! ## Data model: normalized metric records -/

/-- One row of the `normalized_metrics` table.  The auto-increment `id`
and the `updated_at` timestamp are not modelled. -/
structure NormalizedMetric where
  source : String
  entity_type : String
  entity_id : String
  entity_name : String
  date : String
  metric_name : String
  metric_value : ℚ
  metric_type : String
deriving DecidableEq

/-- The composite upsert key `(source, entity_type, entity_id, date,
metric_name)` (unique constraint `uq_normalized_metric`). -/
def nmKey (r : NormalizedMetric) : String × String × String × String × String :=
  (r.source, r.entity_type, r.entity_id, r.date, r.metric_name)

/-! ## Metric registry (`app/core/metric_registry.py`)

Only the `name → metric_type.value` classification is needed by the
transformer; units and descriptions are not modelled. -/

/-- `ALL_METRICS = {**META_METRICS, **DERIVED_METRICS}` as
`name → MetricType.value`. -/
def ALL_METRICS : List (String × String) :=
  [("impressions", "volume"), ("reach", "volume"), ("clicks", "volume"),
   ("unique_clicks", "volume"), ("frequency", "volume"),
   ("spend", "cost"),
   ("purchase_value", "revenue"),
   ("ctr", "rate"), ("cpc", "rate"), ("cpm", "rate"), ("cpp", "rate"),
   ("post_engagement", "engagement"), ("page_engagement", "engagement"),
   ("likes", "engagement"), ("comments", "engagement"), ("shares", "engagement"),
   ("video_views", "video"), ("video_p25_watched", "video"),
   ("video_p50_watched", "video"), ("video_p75_watched", "video"),
   ("video_p100_watched", "video"),
   ("roas", "derived"), ("cpa", "derived"), ("engagement_rate", "derived"),
   ("video_completion_rate", "derived")]

/-- `get_metric(name).metric_type.value if get_metric(name) else "unknown"`. -/
def metricTypeOf (name : String) : String := dget ALL_METRICS name "unknown"

/-! ## Raw Meta rows (`app/connectors/meta/transformer.py`) -/

/-- A Python value as it may occur in a raw insight row.  A string that
`float()` accepts is `numStr` (carrying both the text and its numeric
value); any other string is `str`.  `listv` stands for a nested
list/dict value (`float()` raises `TypeError` on it, like on `none`). -/
inductive PyVal where
  | none : PyVal
  | str : String → PyVal
  | numStr : String → ℚ → PyVal
  | num : ℚ → PyVal
  | bool : Bool → PyVal
  | listv : PyVal
deriving DecidableEq

/-- `_safe_float`: `float(value)`, with `TypeError`/`ValueError`
mapped to `0.0`. -/
def _safe_float : PyVal → ℚ
  | .num q => q
  | .numStr _ q => q
  | .bool b => if b then 1 else 0
  | .none => 0
  | .str _ => 0
  | .listv => 0

/-- One entry of a nested `actions`-style list: `action_type` read via
`.get("action_type", "")`, `value` possibly absent. -/
structure PyAction where
  action_type : String
  value : Option PyVal
deriving DecidableEq

/-- `_safe_float(action.get("value", 0))`. -/
def actionValue (a : PyAction) : ℚ := _safe_float (a.value.getD (.num 0))

/-- A raw insight row: the flat string-keyed scalar fields, plus the
nested `actions`, `action_values` and `video_pXX_watched_actions`
lists. -/
structure Row where
  fields : List (String × PyVal)
  actions : List PyAction
  action_values : List PyAction
  video_p25 : List PyAction
  video_p50 : List PyAction
  video_p75 : List PyAction
  video_p100 : List PyAction
deriving DecidableEq

/-- `row.get(key, "")` used as a string (identity fields, date). -/
def getStr (row : Row) (key : String) : String :=
  match dfind row.fields key with
  | some (.str s) => s
  | some (.numStr s _) => s
  | _ => ""

/-- The fixed list `DIRECT_METRICS`. -/
def DIRECT_METRICS : List String :=
  ["impressions", "reach", "clicks", "unique_clicks", "spend",
   "frequency", "ctr", "cpc", "cpm", "cpp"]

/-- `_extract_entity_info`. -/
def _extract_entity_info (row : Row) (level : String) : String × String × String :=
  if level = "ad" then ("ad", getStr row "ad_id", getStr row "ad_name")
  else if level = "adset" then ("adset", getStr row "adset_id", getStr row "adset_name")
  else if level = "campaign" then
    ("campaign", getStr row "campaign_id", getStr row "campaign_name")
  else ("account", getStr row "account_id", "Account")

/-- One step of the `actions` loop of `_extract_action_metrics`. -/
def actionStep (m : List (String × ℚ)) (a : PyAction) : List (String × ℚ) :=
  let v := actionValue a
  if a.action_type = "link_click" then dset m "link_clicks" v
  else if a.action_type = "post_engagement" then dset m "post_engagement" v
  else if a.action_type = "page_engagement" then dset m "page_engagement" v
  else if a.action_type = "like" then dset m "likes" v
  else if a.action_type = "comment" then dset m "comments" v
  else if a.action_type = "post" then dset m "shares" v
  else if a.action_type = "purchase" ∨ a.action_type = "offsite_conversion.fb_pixel_purchase"
    then dset m "conversions" (dget m "conversions" 0 + v)
  else if a.action_type = "video_view" then dset m "video_views" v
  else m

/-- One step of the `action_values` (revenue) loop. -/
def actionValueStep (m : List (String × ℚ)) (av : PyAction) : List (String × ℚ) :=
  if av.action_type = "purchase" ∨ av.action_type = "offsite_conversion.fb_pixel_purchase"
    then dset m "purchase_value" (actionValue av)
  else m

/-- One video-percentile bucket of `_extract_action_metrics`. -/
def videoStep (key : String) (m : List (String × ℚ)) (lst : List PyAction) :
    List (String × ℚ) :=
  lst.foldl (fun m v => if v.action_type = "video_view" then dset m key (actionValue v) else m) m

/-- `_extract_action_metrics`. -/
def _extract_action_metrics (row : Row) : List (String × ℚ) :=
  let m1 := row.actions.foldl actionStep []
  let m2 := row.action_values.foldl actionValueStep m1
  videoStep "video_p100_watched"
    (videoStep "video_p75_watched"
      (videoStep "video_p50_watched"
        (videoStep "video_p25_watched" m2 row.video_p25) row.video_p50) row.video_p75)
    row.video_p100

/-- The direct-metric extraction loop of `transform_insights`:
`for metric_name in DIRECT_METRICS: if metric_name in row:
all_metrics[metric_name] = _safe_float(row[metric_name])`. -/
def directMetrics (row : Row) : List (String × ℚ) :=
  DIRECT_METRICS.foldl
    (fun acc name =>
      match dfind row.fields name with
      | some v => dset acc name (_safe_float v)
      | none => acc)
    []

/-- `all_metrics` of one row: direct metrics, then
`all_metrics.update(_extract_action_metrics(row))`. -/
def allMetricsOf (row : Row) : List (String × ℚ) :=
  (_extract_action_metrics row).foldl (fun d p => dset d p.1 p.2) (directMetrics row)

/-- The `NormalizedMetric` records one row upserts, in iteration
order. -/
def rowRecords (level : String) (row : Row) : List NormalizedMetric :=
  let e := _extract_entity_info row level
  let date := getStr row "date_start"
  (allMetricsOf row).map (fun p =>
    { source := "meta", entity_type := e.1, entity_id := e.2.1,
      entity_name := e.2.2, date := date, metric_name := p.1,
      metric_value := p.2, metric_type := metricTypeOf p.1 })

/-- In-place update of an existing record: only `metric_value`,
`entity_name` and `metric_type` are replaced. -/
def upsertRec (x r : NormalizedMetric) : NormalizedMetric :=
  { x with metric_value := r.metric_value, entity_name := r.entity_name,
           metric_type := r.metric_type }

/-- Upsert of one record into the store: update the first record with
the same composite key, else append; the flag is true iff a new record
was created. -/
def upsert : List NormalizedMetric → NormalizedMetric → List NormalizedMetric × Bool
  | [], r => ([r], true)
  | x :: xs, r =>
    if nmKey x = nmKey r then (upsertRec x r :: xs, false)
    else
      let p := upsert xs r
      (x :: p.1, p.2)

/-- Sequential upserts; the second component counts created records. -/
def applyUpserts : List NormalizedMetric → List NormalizedMetric → List NormalizedMetric × ℕ
  | store, [] => (store, 0)
  | store, r :: rs =>
    let p := upsert store r
    let q := applyUpserts p.1 rs
    (q.1, (if p.2 then 1 else 0) + q.2)

/-- `transform_insights(raw_data, level, session)`: rows are processed
in order, each of their metrics upserted by composite key; returns the
updated store and the number of newly created records (the length of
the returned `created` list in the source). -/
def transform_insights (raw_data : List Row) (level : String)
    (store : List NormalizedMetric) : List NormalizedMetric × ℕ :=
  applyUpserts store (raw_data.flatMap (rowRecords level))

/-! ## KPI engine (`app/analyzer/kpi_engine.py`) -/

/-- A computed KPI row. -/
structure KPIMetric where
  name : String
  value : ℚ
  unit : String
  entity_type : String
  entity_id : String
  entity_name : String
deriving DecidableEq

/-- The row filter of the KPI queries (`source="meta"`, entity type,
date window). -/
def kpiRowFilter (entity_type date_start date_stop : String) (r : NormalizedMetric) : Bool :=
  r.source == "meta" && r.entity_type == entity_type &&
    strLe date_start r.date && strLe r.date date_stop

/-- `_get_metrics_for_entity`: per-metric sums for one entity over the
window (the unused per-metric counts are not modelled). -/
def _get_metrics_for_entity (store : List NormalizedMetric)
    (entity_type entity_id date_start date_stop : String) : List (String × ℚ) :=
  (store.filter (fun r => kpiRowFilter entity_type date_start date_stop r &&
      r.entity_id == entity_id)).foldl
    (fun sums r => dadd sums r.metric_name r.metric_value) []

/-- The `distinct (entity_id, entity_name)` query, in first-occurrence
order. -/
def kpiEntities (store : List NormalizedMetric)
    (entity_type date_start date_stop : String) : List (String × String) :=
  ((store.filter (kpiRowFilter entity_type date_start date_stop)).map
      (fun r => (r.entity_id, r.entity_name))).foldl
    (fun acc p => if acc.contains p then acc else acc ++ [p]) []

/-- The seven KPI rows computed for one entity: each ratio is guarded
by a strictly positive denominator, computed from window sums, and
rounded to 4 decimal places. -/
def kpisForEntity (store : List NormalizedMetric)
    (date_start date_stop entity_type : String) (e : String × String) : List KPIMetric :=
  let m := _get_metrics_for_entity store entity_type e.1 date_start date_stop
  let impressions := dget m "impressions" 0
  let clicks := dget m "clicks" 0
  let spend := dget m "spend" 0
  let conversions := dget m "conversions" 0
  let purchase_value := dget m "purchase_value" 0
  let post_engagement := dget m "post_engagement" 0
  let video_views := dget m "video_views" 0
  let video_complete := dget m "video_p100_watched" 0
  let ctr := if impressions > 0 then clicks / impressions * 100 else 0
  let cpc := if clicks > 0 then spend / clicks else 0
  let cpm := if impressions > 0 then spend / impressions * 1000 else 0
  let cpa := if conversions > 0 then spend / conversions else 0
  let roas := if spend > 0 then purchase_value / spend else 0
  let eng_rate := if impressions > 0 then post_engagement / impressions * 100 else 0
  let vcr := if video_views > 0 then video_complete / video_views * 100 else 0
  [⟨"ctr", pyRound ctr 4, "%", entity_type, e.1, e.2⟩,
   ⟨"cpc", pyRound cpc 4, "currency", entity_type, e.1, e.2⟩,
   ⟨"cpm", pyRound cpm 4, "currency", entity_type, e.1, e.2⟩,
   ⟨"cpa", pyRound cpa 4, "currency", entity_type, e.1, e.2⟩,
   ⟨"roas", pyRound roas 4, "ratio", entity_type, e.1, e.2⟩,
   ⟨"engagement_rate", pyRound eng_rate 4, "%", entity_type, e.1, e.2⟩,
   ⟨"video_completion_rate", pyRound vcr 4, "%", entity_type, e.1, e.2⟩]

/-- `compute_kpis`. -/
def compute_kpis (store : List NormalizedMetric)
    (date_start date_stop entity_type : String) : List KPIMetric :=
  (kpiEntities store entity_type date_start date_stop).flatMap
    (kpisForEntity store date_start date_stop entity_type)

/-! ## Trend engine (`app/analyzer/trend_engine.py`) -/

/-- A period-over-period trend signal. -/
structure TrendSignal where
  metric_name : String
  entity_type : String
  entity_id : String
  entity_name : String
  current_value : ℚ
  previous_value : ℚ
  change_pct : ℚ
  direction : String
  signal : String
  previous_period_available : Bool
deriving DecidableEq

/-- `_aggregate`: `(entity_id, entity_name, metric_name) → sum` over a
window. -/
def _aggregate (store : List NormalizedMetric)
    (entity_type date_start date_stop : String) :
    List ((String × String × String) × ℚ) :=
  (store.filter (fun r => r.source == "meta" && r.entity_type == entity_type &&
      strLe date_start r.date && strLe r.date date_stop)).foldl
    (fun agg r => dadd agg (r.entity_id, r.entity_name, r.metric_name) r.metric_value) []

/-- `_direction`. -/
def _direction (change_pct : ℚ) : String :=
  if change_pct > 2 then "up"
  else if change_pct < -2 then "down"
  else "flat"

/-- `_signal`: signal from metric semantics. -/
def _signal (metric_name direction : String) : String :=
  let cost_metrics := ["cpc", "cpm", "cpa", "spend"]
  let perf_metrics := ["ctr", "roas", "engagement_rate", "clicks", "conversions",
                       "purchase_value"]
  if cost_metrics.contains metric_name then
    if direction = "up" then "alert"
    else if direction = "down" then "improving"
    else "stable"
  else if perf_metrics.contains metric_name then
    if direction = "up" then "improving"
    else if direction = "down" then "declining"
    else "stable"
  else "stable"

/-- The tracked metric set `TREND_METRICS`. -/
def TREND_METRICS : List String :=
  ["impressions", "clicks", "spend", "ctr", "cpc", "cpm", "conversions",
   "purchase_value", "roas", "engagement_rate"]

/-- The signal emitted for one current-period aggregation entry. -/
def trendEntrySignal (previous : List ((String × String × String) × ℚ))
    (entity_type : String) (kv : (String × String × String) × ℚ) : Option TrendSignal :=
  let eid := kv.1.1
  let ename := kv.1.2.1
  let mname := kv.1.2.2
  let curr_val := kv.2
  if TREND_METRICS.contains mname then
    let prev_val := dget previous (eid, ename, mname) 0
    if prev_val = 0 then
      some ⟨mname, entity_type, eid, ename, pyRound curr_val 4, 0, 0, "flat",
            "insufficient_data", false⟩
    else
      let change := (curr_val - prev_val) / prev_val * 100
      let d := _direction change
      some ⟨mname, entity_type, eid, ename, pyRound curr_val 4, pyRound prev_val 4,
            pyRound change 2, d, _signal mname d, true⟩
  else none

/-- `compute_trends` (the `seen_keys` set in the source is dead code
and not modelled). -/
def compute_trends (store : List NormalizedMetric)
    (date_start date_stop entity_type : String) : List TrendSignal :=
  let prev := _compute_date_ranges date_start date_stop
  let current := _aggregate store entity_type date_start date_stop
  let previous := _aggregate store entity_type prev.1 prev.2
  current.filterMap (trendEntrySignal previous entity_type)

/-! ## Fatigue engine (`app/analyzer/fatigue_engine.py`) -/

/-- One entry of `affected_entities`. -/
structure AffectedEntity where
  entity_id : String
  entity_name : String
  entity_type : String
  fatigue_level : String
  avg_frequency : ℚ
  ctr_declining : Bool
  cpc_rising : Bool
deriving DecidableEq

/-- The fatigue analysis result. -/
structure FatigueAnalysis where
  fatigue_level : String
  affected_entities : List AffectedEntity
  signals : List String
deriving DecidableEq

def FREQUENCY_THRESHOLDS : List (String × ℚ) :=
  [("low", 3), ("medium", 5), ("high", 7), ("critical", 10)]

def CTR_DECLINE_THRESHOLD : ℚ := -15

def CPC_RISE_THRESHOLD : ℚ := 20

def fatigue_order : List String := ["none", "low", "medium", "high", "critical"]

/-- `fatigue_order.index(level)`. -/
def levelIndex (level : String) : ℕ := fatigue_order.indexOf level

/-- The frequency rows of the fatigue query. -/
def freqRows (store : List NormalizedMetric)
    (entity_type date_start date_stop : String) : List NormalizedMetric :=
  store.filter (fun r => r.source == "meta" && r.entity_type == entity_type &&
    r.metric_name == "frequency" && strLe date_start r.date && strLe r.date date_stop)

/-- `freq_sums`: `entity_id → list of frequency values`
(`defaultdict(list)` appends). -/
def freqSums (store : List NormalizedMetric)
    (entity_type date_start date_stop : String) : List (String × List ℚ) :=
  (freqRows store entity_type date_start date_stop).foldl
    (fun d r => dset d r.entity_id (dget d r.entity_id [] ++ [r.metric_value])) []

/-- `entity_names`: last written name per entity. -/
def fatigueEntityNames (store : List NormalizedMetric)
    (entity_type date_start date_stop : String) : List (String × String) :=
  (freqRows store entity_type date_start date_stop).foldl
    (fun d r => dset d r.entity_id r.entity_name) []

/-- The threshold loop: test `critical, high, medium, low` in that
order, first match wins, else `none`. -/
def freqLevelLoop : List String → ℚ → String
  | [], _ => "none"
  | l :: ls, avg =>
    if avg ≥ dget FREQUENCY_THRESHOLDS l 0 then l else freqLevelLoop ls avg

/-- Fatigue level derived from the average frequency. -/
def freqLevel (avg : ℚ) : String :=
  freqLevelLoop ["critical", "high", "medium", "low"] avg

/-- CTR-declining flag: some trend signal of this entity has
`metric_name = "ctr"` and `change_pct <= -15`. -/
def ctrDeclining (trend_signals : List TrendSignal) (entity_id : String) : Bool :=
  trend_signals.any (fun ts => ts.entity_id == entity_id && ts.metric_name == "ctr" &&
    decide (ts.change_pct ≤ CTR_DECLINE_THRESHOLD))

/-- CPC-rising flag: some trend signal of this entity has
`metric_name = "cpc"` and `change_pct >= 20`. -/
def cpcRising (trend_signals : List TrendSignal) (entity_id : String) : Bool :=
  trend_signals.any (fun ts => ts.entity_id == entity_id && ts.metric_name == "cpc" &&
    decide (ts.change_pct ≥ CPC_RISE_THRESHOLD))

/-- The escalation step: upgrade by one level if trends confirm
fatigue and the frequency-derived level is not `none`. -/
def escalate (entity_fatigue : String) (trigger : Bool) : String :=
  if entity_fatigue ≠ "none" ∧ trigger then
    let idx := levelIndex entity_fatigue
    if idx < fatigue_order.length - 1 then
      fatigue_order.getD (min (idx + 1) (fatigue_order.length - 1)) ""
    else entity_fatigue
  else entity_fatigue

/-- Per-entity body of the fatigue loop: the `affected_entities` entry
it contributes, if any. -/
def fatigueEntry (trend_signals : List TrendSignal) (names : List (String × String))
    (entity_type : String) (p : String × List ℚ) : Option AffectedEntity :=
  let avg_freq := if p.2 ≠ [] then p.2.sum / p.2.length else 0
  let lvl0 := freqLevel avg_freq
  let cd := ctrDeclining trend_signals p.1
  let cr := cpcRising trend_signals p.1
  let lvl := escalate lvl0 (cd || cr)
  if lvl ≠ "none" then
    some ⟨p.1, dget names p.1 "", entity_type, lvl, pyRound avg_freq 2, cd, cr⟩
  else none

/-- The running maximum over affected levels, as in the source loop. -/
def maxFatigue (affected : List AffectedEntity) : String :=
  affected.foldl
    (fun acc a => if levelIndex a.fatigue_level > levelIndex acc then a.fatigue_level else acc)
    "none"

/-- The human-readable `signals` list. -/
def fatigueSignals (affected : List AffectedEntity) : List String :=
  if affected ≠ [] then
    let high := affected.filter (fun a => a.fatigue_level == "high" || a.fatigue_level == "critical")
    let ctr_drops := affected.filter (fun a => a.ctr_declining)
    let cpc_rises := affected.filter (fun a => a.cpc_rising)
    (if high ≠ [] then [toString high.length ++ " entities with high/critical fatigue"] else []) ++
    (if ctr_drops ≠ [] then [toString ctr_drops.length ++ " entities with declining CTR"] else []) ++
    (if cpc_rises ≠ [] then [toString cpc_rises.length ++ " entities with rising CPC"] else [])
  else []

/-- `compute_fatigue`. -/
def compute_fatigue (store : List NormalizedMetric)
    (date_start date_stop entity_type : String)
    (trend_signals : List TrendSignal) : FatigueAnalysis :=
  let fs := freqSums store entity_type date_start date_stop
  let names := fatigueEntityNames store entity_type date_start date_stop
  let affected := fs.filterMap (fatigueEntry trend_signals names entity_type)
  ⟨maxFatigue affected, affected, fatigueSignals affected⟩

/-! ## Opportunity engine (`app/analyzer/opportunity_engine.py`) -/

/-- An opportunity flag.  The description string (an f-string with
float format specifiers) is not modelled. -/
structure Opportunity where
  type : String
  entity_type : String
  entity_id : String
  entity_name : String
  potential_impact : String
deriving DecidableEq

def HIGH_ROAS_THRESHOLD : ℚ := 3

def LOW_SPEND_PERCENTILE : ℚ := 3/10

def HIGH_ENGAGEMENT_RATE : ℚ := 2

def LOW_CTR_THRESHOLD : ℚ := 1

def LOW_CPC_THRESHOLD_FACTOR : ℚ := 7/10

/-- `entity_kpis`: `entity_id → {kpi name → value}`. -/
def entityKpisOf (kpis : List KPIMetric) : List (String × List (String × ℚ)) :=
  kpis.foldl
    (fun d k => dset d k.entity_id (dset (dget d k.entity_id []) k.name k.value)) []

/-- `entity_names` of the opportunity engine (first occurrence wins). -/
def oppEntityNames (kpis : List KPIMetric) : List (String × String) :=
  kpis.foldl
    (fun d k => if dmem d k.entity_id then d else dset d k.entity_id k.entity_name) []

/-- `all_spend`: the strictly positive per-entity spend values. -/
def allSpend (kpis : List KPIMetric) : List ℚ :=
  (entityKpisOf kpis).filterMap (fun p =>
    let s := dget p.2 "spend" 0
    if s > 0 then some s else none)

/-- `avg_spend`. -/
def avgSpend (kpis : List KPIMetric) : ℚ :=
  let l := allSpend kpis
  if l ≠ [] then l.sum / l.length else 0

/-- `spend_threshold = avg_spend * LOW_SPEND_PERCENTILE`. -/
def spendThreshold (kpis : List KPIMetric) : ℚ := avgSpend kpis * LOW_SPEND_PERCENTILE

/-- `all_cpc`: the strictly positive per-entity cpc values. -/
def allCpc (kpis : List KPIMetric) : List ℚ :=
  (entityKpisOf kpis).filterMap (fun p =>
    let c := dget p.2 "cpc" 0
    if c > 0 then some c else none)

/-- `avg_cpc`. -/
def avgCpc (kpis : List KPIMetric) : ℚ :=
  let l := allCpc kpis
  if l ≠ [] then l.sum / l.length else 0

/-- `cpc_threshold = avg_cpc * LOW_CPC_THRESHOLD_RATIO` (the constant
is named with RATIO in the source). -/
def cpcThreshold (kpis : List KPIMetric) : ℚ := avgCpc kpis * LOW_CPC_THRESHOLD_FACTOR

/-- The four opportunity rules applied to one entity. -/
def opportunitiesForEntity (names : List (String × String)) (st ct : ℚ)
    (p : String × List (String × ℚ)) : List Opportunity :=
  let name := dget names p.1 ""
  let roas := dget p.2 "roas" 0
  let spend := dget p.2 "spend" 0
  let ctr := dget p.2 "ctr" 0
  let cpc := dget p.2 "cpc" 0
  let eng_rate := dget p.2 "engagement_rate" 0
  (if roas ≥ HIGH_ROAS_THRESHOLD ∧ spend > 0 ∧ spend ≤ st then
    [⟨"scale_up", "campaign", p.1, name, "high"⟩] else []) ++
  (if eng_rate ≥ HIGH_ENGAGEMENT_RATE ∧ ctr < LOW_CTR_THRESHOLD ∧ ctr > 0 then
    [⟨"cta_optimization", "campaign", p.1, name, "medium"⟩] else []) ++
  (if cpc > 0 ∧ cpc ≤ ct ∧ dget p.2 "clicks" 0 > 0 then
    [⟨"capitalize_efficiency", "campaign", p.1, name, "medium"⟩] else []) ++
  (if roas ≥ HIGH_ROAS_THRESHOLD * 2 then
    [⟨"protect_performer", "campaign", p.1, name, "high"⟩] else [])

/-- `compute_opportunities`. -/
def compute_opportunities (kpis : List KPIMetric) : List Opportunity :=
  let st := spendThreshold kpis
  let ct := cpcThreshold kpis
  (entityKpisOf kpis).flatMap (opportunitiesForEntity (oppEntityNames kpis) st ct)

/-! ## Confidence scorer (`pipeline._compute_confidence`)

The only non-rational operation is `variance ** 0.5`; the square root
is passed in as an abstract function `sqrtQ` (the proofs only need
that it maps nonnegative values to nonnegative values). -/

/-- A list with duplicates removed, first occurrence kept (models the
cardinality of a Python `set(...)`). -/
def dedupFirst {α : Type} [DecidableEq α] (l : List α) : List α :=
  l.foldl (fun acc s => if s ∈ acc then acc else acc ++ [s]) []

/-- The confidence breakdown (four factors). -/
structure ConfidenceBreakdown where
  data_completeness : ℚ
  sample_size_factor : ℚ
  metric_coverage : ℚ
  volume_stability : ℚ
deriving DecidableEq

/-- All normalized meta metrics in the window (no entity-type filter). -/
def confMetrics (store : List NormalizedMetric) (date_start date_stop : String) :
    List NormalizedMetric :=
  store.filter (fun r => r.source == "meta" && strLe date_start r.date &&
    strLe r.date date_stop)

/-- `data_completeness`: distinct dates with data over expected days,
capped at 1; `0.0` when the window length is not positive. -/
def dataCompleteness (store : List NormalizedMetric) (date_start date_stop : String) : ℚ :=
  let metrics := confMetrics store date_start date_stop
  let expected_days : ℤ := parseDateDays date_stop - parseDateDays date_start + 1
  let actual_days := (dedupFirst (metrics.map (fun m => m.date))).length
  if expected_days > 0 then min ((actual_days : ℚ) / (expected_days : ℚ)) 1 else 0

/-- `sample_size_factor`: distinct entities over 5, capped at 1. -/
def sampleSizeFactor (store : List NormalizedMetric) (date_start date_stop : String) : ℚ :=
  let metrics := confMetrics store date_start date_stop
  let entity_count := (dedupFirst (metrics.map (fun m => m.entity_id))).length
  min ((entity_count : ℚ) / 5) 1

/-- `metric_coverage`: how many of the five expected metric names are
present, over 5. -/
def metricCoverage (store : List NormalizedMetric) (date_start date_stop : String) : ℚ :=
  let metrics := confMetrics store date_start date_stop
  let metric_names := (metrics.map (fun m => m.metric_name))
  let expected_metrics := ["impressions", "clicks", "spend", "ctr", "cpc"]
  (((expected_metrics.filter (fun n => metric_names.contains n)).length : ℚ)) / 5

/-- `daily_impressions`: per-date impression totals. -/
def dailyImpressions (store : List NormalizedMetric) (date_start date_stop : String) :
    List (String × ℚ) :=
  (confMetrics store date_start date_stop).foldl
    (fun d r => if r.metric_name == "impressions" then dadd d r.date r.metric_value else d) []

/-- `volume_stability`: `max(1 - cv, 0)` with `cv` the coefficient of
variation of the daily impression totals; `0.5` with at most one day
of impression data. -/
def volumeStability (sqrtQ : ℚ → ℚ) (store : List NormalizedMetric)
    (date_start date_stop : String) : ℚ :=
  let daily := dailyImpressions store date_start date_stop
  if daily.length > 1 then
    let values := daily.map (fun p => p.2)
    let mean := values.sum / (values.length : ℚ)
    let variance := (values.map (fun v => (v - mean) ^ 2)).sum / (values.length : ℚ)
    let cv := if mean > 0 then sqrtQ variance / mean else 1
    max (1 - cv) 0
  else 1/2

/-- `_compute_confidence`: score and breakdown. -/
def _compute_confidence (sqrtQ : ℚ → ℚ) (store : List NormalizedMetric)
    (date_start date_stop : String) : ℚ × ConfidenceBreakdown :=
  if confMetrics store date_start date_stop = [] then (0, ⟨0, 0, 0, 0⟩)
  else
    let dc := dataCompleteness store date_start date_stop
    let ssf := sampleSizeFactor store date_start date_stop
    let cov := metricCoverage store date_start date_stop
    let vs := volumeStability sqrtQ store date_start date_stop
    (pyRound (dc * (3/10) + ssf * (1/5) + cov * (3/10) + vs * (1/5)) 4,
     ⟨pyRound dc 3, pyRound ssf 3, pyRound cov 3, pyRound vs 3⟩)

/-! ## Risk detection (the trend loop of `pipeline.run_analysis`) -/

/-- A risk flag.  The description f-string is not modelled. -/
structure Risk where
  type : String
  severity : String
  entity_type : String
  entity_id : String
deriving DecidableEq

/-- The risk emitted for one trend signal, if any: signals without a
previous period are skipped; `alert` signals with `|change_pct| > 25`
become risks, severity `high` above 50, else `medium`. -/
def riskForSignal (t : TrendSignal) : Option Risk :=
  if ¬ t.previous_period_available then none
  else if t.signal = "alert" ∧ |t.change_pct| > 25 then
    some ⟨"trend_alert", if |t.change_pct| > 50 then "high" else "medium",
          t.entity_type, t.entity_id⟩
  else none

/-- The risk-detection loop over all trend signals. -/
def detectRisks (trends : List TrendSignal) : List Risk :=
  trends.filterMap riskForSignal

/-! ## General helper lemmas -/

theorem dset_append_of_not_mem {K V : Type} [DecidableEq K] (d : List (K × V)) (k : K)
    (v : V) (h : dmem d k = false) : dset d k v = d ++ [(k, v)] := by
  induction d with
  | nil => simp [dset]
  | cons p d ih =>
    simp only [dmem, dfind] at h
    by_cases hp : p.1 = k
    · simp [hp] at h
    · simp only [dset, if_neg hp, List.cons_append, List.cons.injEq, true_and]
      apply ih
      simpa [dmem, hp] using h

theorem nodup_keysD_dset {K V : Type} [DecidableEq K] {d : List (K × V)} (k : K) (v : V)
    (h : (keysD d).Nodup) : (keysD (dset d k v)).Nodup := by
  rw [keysD_dset]
  split
  · exact h
  · rename_i hm
    have hk : k ∉ keysD d := fun hc => hm ((dmem_iff_keys d k).mpr hc)
    simp [List.nodup_append, h, hk]

/-- A fold whose step only does `dset`-like key updates preserves
distinctness of keys. -/
theorem nodup_keysD_foldl {α K V : Type} [DecidableEq K]
    (step : List (K × V) → α → List (K × V))
    (hstep : ∀ d a, (keysD d).Nodup → (keysD (step d a)).Nodup) :
    ∀ (l : List α) (d : List (K × V)), (keysD d).Nodup → (keysD (l.foldl step d)).Nodup := by
  intro l
  induction l with
  | nil => intro d h; exact h
  | cons a l ih => intro d h; exact ih (step d a) (hstep d a h)

/-- Keys produced by a fold of key updates come from the start
dictionary or from the folded elements. -/
theorem keysD_foldl_subset {α K V : Type} [DecidableEq K]
    (step : List (K × V) → α → List (K × V)) (keyOf : α → K)
    (hstep : ∀ d a, keysD (step d a) = keysD d ∨ keysD (step d a) = keysD d ++ [keyOf a]) :
    ∀ (l : List α) (d : List (K × V)) (x : K),
      x ∈ keysD (l.foldl step d) → x ∈ keysD d ∨ x ∈ l.map keyOf := by
  intro l
  induction l with
  | nil => intro d x hx; exact Or.inl hx
  | cons a l ih =>
    intro d x hx
    rcases ih (step d a) x hx with h1 | h1
    · rcases hstep d a with h2 | h2
      · exact Or.inl (h2 ▸ h1)
      · rw [h2, List.mem_append] at h1
        rcases h1 with h3 | h3
        · exact Or.inl h3
        · simp only [List.mem_singleton] at h3
          exact Or.inr (by simp [h3])
    · exact Or.inr (List.mem_cons_of_mem _ h1)

/-- `filterMap` of a guarded identity is `filter` after `map`. -/
theorem filterMap_guard_eq_filter_map {α : Type} (f : α → ℚ) (l : List α) :
    (l.filterMap (fun a => if f a > 0 then some (f a) else none)) =
      (l.map f).filter (fun x => decide (x > 0)) := by
  induction l with
  | nil => rfl
  | cons a l ih =>
    by_cases h : f a > 0 <;> simp [List.filterMap_cons, List.filter_cons, h, ih]

/-! ## Fatigue helper lemmas -/

/-- The descending threshold loop in closed form. -/
theorem freqLevel_eq (avg : ℚ) :
    freqLevel avg =
      if avg ≥ 10 then "critical"
      else if avg ≥ 7 then "high"
      else if avg ≥ 5 then "medium"
      else if avg ≥ 3 then "low"
      else "none" := by
  simp [freqLevel, freqLevelLoop, FREQUENCY_THRESHOLDS, dget, dfind]

theorem freqLevel_mem (avg : ℚ) : freqLevel avg ∈ fatigue_order := by
  rw [freqLevel_eq]
  split_ifs <;> decide

theorem freqLevel_of_lt_three {avg : ℚ} (h : avg < 3) : freqLevel avg = "none" := by
  rw [freqLevel_eq]
  have h10 : ¬ avg ≥ 10 := by linarith
  have h7 : ¬ avg ≥ 7 := by linarith
  have h5 : ¬ avg ≥ 5 := by linarith
  have h3 : ¬ avg ≥ 3 := by linarith
  simp [h10, h7, h5, h3]

theorem escalate_none (trig : Bool) : escalate "none" trig = "none" := by
  simp [escalate]

theorem escalate_mem {lvl : String} (trig : Bool) (h : lvl ∈ fatigue_order) :
    escalate lvl trig ∈ fatigue_order := by
  simp only [fatigue_order, List.mem_cons, List.mem_singleton] at h
  rcases h with rfl | rfl | rfl | rfl | rfl | h
  · cases trig <;> decide
  · cases trig <;> decide
  · cases trig <;> decide
  · cases trig <;> decide
  · cases trig <;> decide
  · simp at h

/-- The per-entity fatigue level after a maximum of one escalation
step: not `none`, and a member of the level set. -/
theorem fatigueEntry_level {trend_signals : List TrendSignal} {names : List (String × String)}
    {entity_type : String} {p : String × List ℚ} {a : AffectedEntity}
    (h : fatigueEntry trend_signals names entity_type p = some a) :
    a.fatigue_level ∈ (["low", "medium", "high", "critical"] : List String) := by
  unfold fatigueEntry at h
  set lvl := escalate (freqLevel (if p.2 ≠ [] then p.2.sum / (p.2.length : ℚ) else 0))
    (ctrDeclining trend_signals p.1 || cpcRising trend_signals p.1) with hlvl
  by_cases hne : lvl ≠ "none"
  · rw [if_pos hne] at h
    have hmem : lvl ∈ fatigue_order :=
      escalate_mem _ (freqLevel_mem _)
    have hla : a.fatigue_level = lvl := by
      cases h
      rfl
    rw [hla]
    simp only [fatigue_order, List.mem_cons, List.mem_singleton] at hmem
    rcases hmem with h1 | h1 | h1 | h1 | h1 | h1
    · exact absurd h1 hne
    · simp [h1]
    · simp [h1]
    · simp [h1]
    · simp [h1]
    · simp at h1
  · rw [if_neg hne] at h
    cases h

/-- The running maximum of the fatigue loop dominates every element
and every starting accumulator, and is either the accumulator or one
of the levels in the list. -/
theorem maxFatigue_go (l : List AffectedEntity) :
    ∀ acc : String,
      (∀ a ∈ l, levelIndex a.fatigue_level ≤
        levelIndex (l.foldl (fun acc a =>
          if levelIndex a.fatigue_level > levelIndex acc then a.fatigue_level else acc) acc)) ∧
      levelIndex acc ≤ levelIndex (l.foldl (fun acc a =>
          if levelIndex a.fatigue_level > levelIndex acc then a.fatigue_level else acc) acc) ∧
      ((l.foldl (fun acc a =>
          if levelIndex a.fatigue_level > levelIndex acc then a.fatigue_level else acc) acc) = acc ∨
        (l.foldl (fun acc a =>
          if levelIndex a.fatigue_level > levelIndex acc then a.fatigue_level else acc) acc) ∈
          l.map (fun a => a.fatigue_level)) := by
  induction l with
  | nil => intro acc; exact ⟨by simp, le_refl _, Or.inl rfl⟩
  | cons b l ih =>
    intro acc
    simp only [List.foldl_cons]
    set acc2 := if levelIndex b.fatigue_level > levelIndex acc then b.fatigue_level else acc
      with hacc2
    have hb : levelIndex b.fatigue_level ≤ levelIndex acc2 := by
      rw [hacc2]
      split
      · exact le_refl _
      · omega
    have hacc : levelIndex acc ≤ levelIndex acc2 := by
      rw [hacc2]
      split
      · omega
      · exact le_refl _
    obtain ⟨ih1, ih2, ih3⟩ := ih acc2
    refine ⟨?_, le_trans hacc ih2, ?_⟩
    · intro a ha
      rcases List.mem_cons.mp ha with rfl | ha2
      · exact le_trans hb ih2
      · exact ih1 a ha2
    · rcases ih3 with h1 | h1
      · rw [h1, hacc2]
        split
        · exact Or.inr (by simp)
        · exact Or.inl rfl
      · exact Or.inr (List.mem_cons_of_mem _ h1)

/-- One step up in the total order none<low<medium<high<critical,
with critical as top.  Follows the claim wording for escalation. -/
def nextLevel : String → String
  | "none" => "low"
  | "low" => "medium"
  | "medium" => "high"
  | "high" => "critical"
  | "critical" => "critical"
  | l => l

/-- The escalation rule as the claim words it: a confirming trend
signal always raises the level by one step. -/
def escalateSpec (lvl : String) (trigger : Bool) : String :=
  if trigger then nextLevel lvl else lvl

theorem escalate_step {lvl : String} (h : lvl ∈ fatigue_order) (hne : lvl ≠ "none") :
    escalate lvl true = nextLevel lvl := by
  simp only [fatigue_order, List.mem_cons, List.mem_singleton] at h
  rcases h with rfl | rfl | rfl | rfl | rfl | h
  · exact absurd rfl hne
  · decide
  · decide
  · decide
  · decide
  · simp at h

/-- Claim C5: for every entity with frequency data, the mean frequency
is mapped to a level by testing thresholds in descending order
(critical ≥ 10, high ≥ 7, medium ≥ 5, low ≥ 3, else none, first match
wins); and the report fatigue level is the maximum over all affected
entities under the order none<low<medium<high<critical. -/
theorem fatigue_level_mapping_and_max :
    (∀ avg : ℚ, freqLevel avg =
      if avg ≥ 10 then "critical"
      else if avg ≥ 7 then "high"
      else if avg ≥ 5 then "medium"
      else if avg ≥ 3 then "low"
      else "none") ∧
    (∀ (store : List NormalizedMetric) (ds de et : String) (trends : List TrendSignal),
      (∀ a ∈ (compute_fatigue store ds de et trends).affected_entities,
        levelIndex a.fatigue_level ≤
          levelIndex (compute_fatigue store ds de et trends).fatigue_level) ∧
      ((compute_fatigue store ds de et trends).fatigue_level = "none" ∨
        (compute_fatigue store ds de et trends).fatigue_level ∈
          (compute_fatigue store ds de et trends).affected_entities.map
            (fun a => a.fatigue_level))) := by
  constructor
  · exact freqLevel_eq
  · intro store ds de et trends
    obtain ⟨h1, _, h3⟩ := maxFatigue_go
      ((freqSums store et ds de).filterMap
        (fatigueEntry trends (fatigueEntityNames store et ds de) et)) "none"
    exact ⟨h1, h3⟩

def c5Store : List NormalizedMetric :=
  [⟨"meta", "ad", "a1", "A1", "2024-01-08", "frequency", 8, "volume"⟩,
   ⟨"meta", "ad", "a1", "A1", "2024-01-09", "frequency", 9, "volume"⟩]

def c5Trends : List TrendSignal :=
  [⟨"ctr", "campaign", "a1", "A1", 1, 2, -20, "down", "declining", true⟩]

theorem fatigue_level_mapping_and_max_witness :
    freqLevel (17/2) = "high" ∧
    levelIndex "critical" ≤
      levelIndex ((compute_fatigue c5Store "2024-01-08" "2024-01-14" "ad" c5Trends).fatigue_level) := by
  constructor
  · rw [fatigue_level_mapping_and_max.1 (17/2)]
    decide
  · exact (fatigue_level_mapping_and_max.2 c5Store "2024-01-08" "2024-01-14" "ad" c5Trends).1
      ⟨"a1", "A1", "ad", "critical", 17/2, true, false⟩ (by decide)

def c4Store : List NormalizedMetric :=
  [⟨"meta", "ad", "a1", "A1", "2024-01-08", "frequency", 2, "volume"⟩]

def c4Trends : List TrendSignal :=
  [⟨"ctr", "campaign", "a1", "A1", 1, 2, -20, "down", "declining", true⟩]

/-- Claim C4, counterexample: an entity whose frequency-derived level
is `none` (mean frequency 2) with a confirming CTR-declining trend
signal is NOT raised by one step to `low` — it is left out of
`affected_entities` entirely, so the claim as stated fails on the
code. -/
theorem fatigue_escalation_counterexample :
    ctrDeclining c4Trends "a1" = true ∧
    freqLevel 2 = "none" ∧
    escalateSpec (freqLevel 2) true = "low" ∧
    (compute_fatigue c4Store "2024-01-08" "2024-01-14" "ad" c4Trends).affected_entities = [] ∧
    (compute_fatigue c4Store "2024-01-08" "2024-01-14" "ad" c4Trends).fatigue_level = "none" := by
  decide

/-- Claim C4 (amended): when the frequency-derived level is not
`none`, a confirming trend signal raises it by exactly one step in the
order none<low<medium<high<critical; escalation never produces a value
outside that set (every reported entity level is in
low–critical), and escalating from critical stays at critical. -/
theorem fatigue_escalation_amended (store : List NormalizedMetric)
    (ds de et : String) (trends : List TrendSignal) (lvl : String) (trig : Bool)
    (hl : lvl ∈ fatigue_order) :
    (∀ a ∈ (compute_fatigue store ds de et trends).affected_entities,
      a.fatigue_level ∈ (["low", "medium", "high", "critical"] : List String)) ∧
    escalate lvl trig ∈ fatigue_order ∧
    (lvl ≠ "none" → escalate lvl true = nextLevel lvl) ∧
    escalate "critical" trig = "critical" := by
  refine ⟨?_, escalate_mem trig hl, fun hne => escalate_step hl hne, ?_⟩
  · intro a ha
    obtain ⟨p, _, he⟩ := List.mem_filterMap.mp ha
    exact fatigueEntry_level he
  · cases trig <;> decide

theorem fatigue_escalation_amended_witness :
    ("high" ∈ fatigue_order) ∧
    ((∀ a ∈ (compute_fatigue c4Store "2024-01-08" "2024-01-14" "ad" c4Trends).affected_entities,
        a.fatigue_level ∈ (["low", "medium", "high", "critical"] : List String)) ∧
      escalate "high" true ∈ fatigue_order ∧
      ("high" ≠ "none" → escalate "high" true = nextLevel "high") ∧
      escalate "critical" true = "critical") :=
  ⟨by decide,
   fatigue_escalation_amended c4Store "2024-01-08" "2024-01-14" "ad" c4Trends "high" true
     (by decide)⟩

/-- Fields of a produced `affected_entities` entry: its id is the
entity key, its level is the escalated frequency level, and it is
never `none`. -/
theorem fatigueEntry_fields {trends : List TrendSignal} {names : List (String × String)}
    {et : String} {p : String × List ℚ} {a : AffectedEntity}
    (h : fatigueEntry trends names et p = some a) :
    a.entity_id = p.1 ∧
    a.fatigue_level =
      escalate (freqLevel (if p.2 ≠ [] then p.2.sum / (p.2.length : ℚ) else 0))
        (ctrDeclining trends p.1 || cpcRising trends p.1) ∧
    a.fatigue_level ≠ "none" := by
  unfold fatigueEntry at h
  split at h
  · rename_i hne2
    simp only [] at h
    split at h
    · rename_i hguard
      have hea := Option.some.inj h
      refine ⟨by rw [← hea], ?_, ?_⟩
      · rw [← hea]
        simp [hne2]
      · rw [← hea]
        exact hguard
    · exact absurd h (by simp)
  · rename_i hne2
    simp only [] at h
    split at h
    · rename_i hguard
      have hea := Option.some.inj h
      refine ⟨by rw [← hea], ?_, ?_⟩
      · rw [← hea]
        simp [hne2]
      · rw [← hea]
        exact hguard
    · exact absurd h (by simp)

/-- Claim C10: an entity whose mean frequency is below 3 (level
`none`) is never escalated and never appears in `affected_entities`,
even when a CTR-declining or CPC-rising trend signal exists for it. -/
theorem fatigue_none_entity_absent (store : List NormalizedMetric)
    (ds de et : String) (trends : List TrendSignal) (eid : String)
    (h : dget (freqSums store et ds de) eid [] = [] ∨
      (dget (freqSums store et ds de) eid []).sum /
        ((dget (freqSums store et ds de) eid []).length : ℚ) < 3) :
    eid ∉ ((compute_fatigue store ds de et trends).affected_entities.map
      (fun a => a.entity_id)) := by
  intro hc
  obtain ⟨a, ha, hae⟩ := List.mem_map.mp hc
  obtain ⟨p, hp, he⟩ := List.mem_filterMap.mp ha
  have hnd : (keysD (freqSums store et ds de)).Nodup := by
    unfold freqSums
    exact nodup_keysD_foldl _ (fun d r hd => nodup_keysD_dset _ _ hd) _ []
      (by simp [keysD])
  have hkey : dfind (freqSums store et ds de) p.1 = some p.2 :=
    dfind_of_mem_nodup _ p hnd hp
  obtain ⟨hap, hlvl, hne⟩ := fatigueEntry_fields he
  have hpe : p.1 = eid := by rw [← hap, hae]
  have hval : dget (freqSums store et ds de) eid [] = p.2 := by
    rw [← hpe]
    simp [dget, hkey]
  rw [hval] at h
  have hnone : freqLevel (if p.2 ≠ [] then p.2.sum / (p.2.length : ℚ) else 0) = "none" := by
    rcases h with h1 | h1
    · simp only [h1, ne_eq, not_true_eq_false, if_false]
      exact freqLevel_of_lt_three (by norm_num)
    · by_cases h2 : p.2 = []
      · simp only [h2, ne_eq, not_true_eq_false, if_false]
        exact freqLevel_of_lt_three (by norm_num)
      · rw [if_pos h2]
        exact freqLevel_of_lt_three h1
  rw [hnone, escalate_none] at hlvl
  exact hne hlvl

theorem fatigue_none_entity_absent_witness :
    (dget (freqSums c4Store "ad" "2024-01-08" "2024-01-14") "a1" [] = [] ∨
      (dget (freqSums c4Store "ad" "2024-01-08" "2024-01-14") "a1" []).sum /
        ((dget (freqSums c4Store "ad" "2024-01-08" "2024-01-14") "a1" []).length : ℚ) < 3) ∧
    "a1" ∉ ((compute_fatigue c4Store "2024-01-08" "2024-01-14" "ad" c4Trends).affected_entities.map
      (fun a => a.entity_id)) :=
  ⟨Or.inr (by decide),
   fatigue_none_entity_absent c4Store "2024-01-08" "2024-01-14" "ad" c4Trends "a1"
     (Or.inr (by decide))⟩

/-! ## Risk detection claims -/

theorem riskForSignal_eq_some (t : TrendSignal) (r : Risk) :
    riskForSignal t = some r ↔
      (t.previous_period_available = true ∧ t.signal = "alert" ∧ |t.change_pct| > 25 ∧
        r = ⟨"trend_alert", if |t.change_pct| > 50 then "high" else "medium",
             t.entity_type, t.entity_id⟩) := by
  unfold riskForSignal
  by_cases hp : t.previous_period_available = true
  · by_cases hc : t.signal = "alert" ∧ |t.change_pct| > 25
    · rw [if_neg (not_not_intro hp), if_pos hc]
      constructor
      · intro h
        exact ⟨hp, hc.1, hc.2, (Option.some.inj h).symm⟩
      · rintro ⟨-, -, -, hr⟩
        rw [hr]
    · rw [if_neg (not_not_intro hp), if_neg hc]
      constructor
      · intro h
        exact absurd h (by simp)
      · rintro ⟨-, hs, hpc, -⟩
        exact absurd ⟨hs, hpc⟩ hc
  · rw [if_pos hp]
    constructor
    · intro h
      exact absurd h (by simp)
    · rintro ⟨hp2, -, -, -⟩
      exact absurd hp2 hp

/-- Claim C8: a risk is emitted for a trend signal iff the signal has
`previous_period_available = true`, `signal = "alert"` and
`|change_pct| > 25`; its severity is `high` iff `|change_pct| > 50`,
else `medium` — a missing baseline is never flagged. -/
theorem risk_emitted_iff (trends : List TrendSignal) (r : Risk) :
    r ∈ detectRisks trends ↔
      ∃ t ∈ trends, t.previous_period_available = true ∧ t.signal = "alert" ∧
        |t.change_pct| > 25 ∧
        r = ⟨"trend_alert", if |t.change_pct| > 50 then "high" else "medium",
             t.entity_type, t.entity_id⟩ := by
  unfold detectRisks
  rw [List.mem_filterMap]
  constructor
  · rintro ⟨t, ht, he⟩
    exact ⟨t, ht, (riskForSignal_eq_some t r).mp he⟩
  · rintro ⟨t, ht, hp⟩
    exact ⟨t, ht, (riskForSignal_eq_some t r).mpr hp⟩

/-! ## Trend claims -/

/-- Claim C1: for every entity and tracked metric present in the
current window, a previous-window sum of exactly zero yields the
insufficient-data signal (`previous_period_available = false`,
`change_pct = 0`, `direction = "flat"`,
`signal = "insufficient_data"`); a zero baseline is never reported as
a percentage change. -/
theorem trend_zero_baseline (store : List NormalizedMetric) (ds de et : String)
    (eid ename mname : String) (c : ℚ)
    (hmem : ((eid, ename, mname), c) ∈ _aggregate store et ds de)
    (htracked : mname ∈ TREND_METRICS)
    (hzero : dget (_aggregate store et (_compute_date_ranges ds de).1
      (_compute_date_ranges ds de).2) (eid, ename, mname) 0 = 0) :
    (⟨mname, et, eid, ename, pyRound c 4, 0, 0, "flat", "insufficient_data", false⟩ :
      TrendSignal) ∈ compute_trends store ds de et ∧
    ∀ ts ∈ compute_trends store ds de et,
      ts.entity_id = eid → ts.entity_name = ename → ts.metric_name = mname →
      ts.previous_period_available = false ∧ ts.change_pct = 0 ∧
      ts.direction = "flat" ∧ ts.signal = "insufficient_data" := by
  constructor
  · refine List.mem_filterMap.mpr ⟨((eid, ename, mname), c), hmem, ?_⟩
    unfold trendEntrySignal
    simp [htracked, hzero]
  · intro ts hts hid hname hm
    obtain ⟨kv, hkv, he⟩ := List.mem_filterMap.mp hts
    obtain ⟨⟨keid, kename, kmname⟩, kval⟩ := kv
    unfold trendEntrySignal at he
    simp only [] at he
    split at he
    · split at he
      · have hx := Option.some.inj he
        subst hx
        exact ⟨rfl, rfl, rfl, rfl⟩
      · rename_i hprev
        have hx := Option.some.inj he
        subst hx
        simp only [] at hid hname hm
        subst hid
        subst hname
        subst hm
        exact absurd hzero hprev
    · exact absurd he (by simp)

def c1Store : List NormalizedMetric :=
  [⟨"meta", "campaign", "e1", "E1", "2024-01-10", "clicks", 100, "volume"⟩]

theorem trend_zero_baseline_witness :
    ((("e1", "E1", "clicks"), (100 : ℚ)) ∈ _aggregate c1Store "campaign" "2024-01-08" "2024-01-14") ∧
    ("clicks" ∈ TREND_METRICS) ∧
    (dget (_aggregate c1Store "campaign" (_compute_date_ranges "2024-01-08" "2024-01-14").1
      (_compute_date_ranges "2024-01-08" "2024-01-14").2) ("e1", "E1", "clicks") 0 = 0) ∧
    ((⟨"clicks", "campaign", "e1", "E1", pyRound 100 4, 0, 0, "flat", "insufficient_data",
        false⟩ : TrendSignal) ∈ compute_trends c1Store "2024-01-08" "2024-01-14" "campaign" ∧
      ∀ ts ∈ compute_trends c1Store "2024-01-08" "2024-01-14" "campaign",
        ts.entity_id = "e1" → ts.entity_name = "E1" → ts.metric_name = "clicks" →
        ts.previous_period_available = false ∧ ts.change_pct = 0 ∧
        ts.direction = "flat" ∧ ts.signal = "insufficient_data") :=
  ⟨by decide, by decide, by decide,
   trend_zero_baseline c1Store "2024-01-08" "2024-01-14" "campaign" "e1" "E1" "clicks" 100
     (by decide) (by decide) (by decide)⟩

/-! ## KPI claims -/

/-- The seven KPI formulas of the claim, as
`(name, numerator, denominator, scale, unit)` over the window sums. -/
def kpiFormulaTable (m : List (String × ℚ)) : List (String × ℚ × ℚ × ℚ × String) :=
  [("ctr", dget m "clicks" 0, dget m "impressions" 0, 100, "%"),
   ("cpc", dget m "spend" 0, dget m "clicks" 0, 1, "currency"),
   ("cpm", dget m "spend" 0, dget m "impressions" 0, 1000, "currency"),
   ("cpa", dget m "spend" 0, dget m "conversions" 0, 1, "currency"),
   ("roas", dget m "purchase_value" 0, dget m "spend" 0, 1, "ratio"),
   ("engagement_rate", dget m "post_engagement" 0, dget m "impressions" 0, 100, "%"),
   ("video_completion_rate", dget m "video_p100_watched" 0, dget m "video_views" 0, 100, "%")]

/-- The KPI value exactly as the claim words it: the ratio rounded to
4 decimal places, and `0.0` when the denominator is zero. -/
def kpiClaimValue (num den scale : ℚ) : ℚ :=
  if den = 0 then 0 else pyRound (num / den * scale) 4

theorem guarded_round (num den scale : ℚ) :
    (if den > 0 then pyRound (num / den * scale) 4 else 0) =
      pyRound (if den > 0 then num / den * scale else 0) 4 := by
  split_ifs with h
  · rfl
  · rw [pyRound_zero]

def c2Store : List NormalizedMetric :=
  [⟨"meta", "campaign", "e1", "E1", "2024-01-08", "clicks", -1, "volume"⟩,
   ⟨"meta", "campaign", "e1", "E1", "2024-01-08", "spend", 5, "cost"⟩]

/-- Claim C2, counterexample: with window sums `clicks = -1` (a
nonzero denominator) and `spend = 5`, the claim requires
`cpc = round(5 / (-1), 4) = -5`, but the code guards each ratio with
`denominator > 0` (not `denominator != 0`) and emits `cpc = 0`. -/
theorem kpi_formulas_counterexample :
    dget (_get_metrics_for_entity c2Store "campaign" "e1" "2024-01-08" "2024-01-14")
      "clicks" 0 = -1 ∧
    dget (_get_metrics_for_entity c2Store "campaign" "e1" "2024-01-08" "2024-01-14")
      "spend" 0 = 5 ∧
    kpiClaimValue 5 (-1) 1 = -5 ∧
    (⟨"cpc", 0, "currency", "campaign", "e1", "E1"⟩ : KPIMetric) ∈
      compute_kpis c2Store "2024-01-08" "2024-01-14" "campaign" ∧
    ¬ ((⟨"cpc", -5, "currency", "campaign", "e1", "E1"⟩ : KPIMetric) ∈
      compute_kpis c2Store "2024-01-08" "2024-01-14" "campaign") := by
  decide

/-- Claim C2 (amended): for every entity in the window, each derived
ratio is computed from the window sums and rounded to 4 decimal
places, with result `0.0` whenever the denominator is not strictly
positive (in particular when it is zero); with `impressions = 0` the
ctr, cpm and engagement-rate KPIs are all `0`. -/
theorem kpi_formulas_amended (store : List NormalizedMetric)
    (ds de et eid ename : String)
    (he : (eid, ename) ∈ kpiEntities store et ds de) :
    (∀ name num den scale unit,
      (name, num, den, scale, unit) ∈
        kpiFormulaTable (_get_metrics_for_entity store et eid ds de) →
      (⟨name, if den > 0 then pyRound (num / den * scale) 4 else 0, unit, et, eid, ename⟩ :
        KPIMetric) ∈ compute_kpis store ds de et) ∧
    (dget (_get_metrics_for_entity store et eid ds de) "impressions" 0 = 0 →
      ((⟨"ctr", 0, "%", et, eid, ename⟩ : KPIMetric) ∈ compute_kpis store ds de et ∧
       (⟨"cpm", 0, "currency", et, eid, ename⟩ : KPIMetric) ∈ compute_kpis store ds de et ∧
       (⟨"engagement_rate", 0, "%", et, eid, ename⟩ : KPIMetric) ∈
         compute_kpis store ds de et)) := by
  have hmain : ∀ name num den scale unit,
      (name, num, den, scale, unit) ∈
        kpiFormulaTable (_get_metrics_for_entity store et eid ds de) →
      (⟨name, if den > 0 then pyRound (num / den * scale) 4 else 0, unit, et, eid, ename⟩ :
        KPIMetric) ∈ compute_kpis store ds de et := by
    intro name num den scale unit hmem2
    refine List.mem_flatMap.mpr ⟨(eid, ename), he, ?_⟩
    unfold kpiFormulaTable at hmem2
    simp only [List.mem_cons, List.not_mem_nil, or_false] at hmem2
    rw [guarded_round]
    rcases hmem2 with h | h | h | h | h | h | h <;>
      (simp only [Prod.mk.injEq] at h
       obtain ⟨rfl, rfl, rfl, rfl, rfl⟩ := h
       unfold kpisForEntity
       simp [mul_one])
  refine ⟨hmain, fun h0 => ⟨?_, ?_, ?_⟩⟩
  · have h := hmain "ctr" (dget (_get_metrics_for_entity store et eid ds de) "clicks" 0)
      (dget (_get_metrics_for_entity store et eid ds de) "impressions" 0) 100 "%"
      (by simp [kpiFormulaTable])
    rw [h0] at h
    simpa using h
  · have h := hmain "cpm" (dget (_get_metrics_for_entity store et eid ds de) "spend" 0)
      (dget (_get_metrics_for_entity store et eid ds de) "impressions" 0) 1000 "currency"
      (by simp [kpiFormulaTable])
    rw [h0] at h
    simpa using h
  · have h := hmain "engagement_rate"
      (dget (_get_metrics_for_entity store et eid ds de) "post_engagement" 0)
      (dget (_get_metrics_for_entity store et eid ds de) "impressions" 0) 100 "%"
      (by simp [kpiFormulaTable])
    rw [h0] at h
    simpa using h

theorem kpi_formulas_amended_witness :
    (("e1", "E1") ∈ kpiEntities c2Store "campaign" "2024-01-08" "2024-01-14") ∧
    ((∀ name num den scale unit,
      (name, num, den, scale, unit) ∈
        kpiFormulaTable (_get_metrics_for_entity c2Store "campaign" "e1" "2024-01-08" "2024-01-14") →
      (⟨name, if den > 0 then pyRound (num / den * scale) 4 else 0, unit, "campaign", "e1", "E1"⟩ :
        KPIMetric) ∈ compute_kpis c2Store "2024-01-08" "2024-01-14" "campaign") ∧
    (dget (_get_metrics_for_entity c2Store "campaign" "e1" "2024-01-08" "2024-01-14")
        "impressions" 0 = 0 →
      ((⟨"ctr", 0, "%", "campaign", "e1", "E1"⟩ : KPIMetric) ∈
          compute_kpis c2Store "2024-01-08" "2024-01-14" "campaign" ∧
       (⟨"cpm", 0, "currency", "campaign", "e1", "E1"⟩ : KPIMetric) ∈
          compute_kpis c2Store "2024-01-08" "2024-01-14" "campaign" ∧
       (⟨"engagement_rate", 0, "%", "campaign", "e1", "E1"⟩ : KPIMetric) ∈
          compute_kpis c2Store "2024-01-08" "2024-01-14" "campaign"))) :=
  ⟨by decide,
   kpi_formulas_amended c2Store "2024-01-08" "2024-01-14" "campaign" "e1" "E1" (by decide)⟩

/-! ## Opportunity claims -/

/-- The mean of the strictly positive values of a list, following the
claim wording (an empty selection yields `0`, since `0 / 0 = 0` over
`ℚ`, matching the code fallback). -/
def posMean (l : List ℚ) : ℚ :=
  (l.filter (fun x => decide (x > 0))).sum / ((l.filter (fun x => decide (x > 0))).length : ℚ)

/-- The per-entity spend KPI values, in entity order. -/
def perEntitySpend (kpis : List KPIMetric) : List ℚ :=
  (entityKpisOf kpis).map (fun p => dget p.2 "spend" 0)

/-- The per-entity cpc KPI values, in entity order. -/
def perEntityCpc (kpis : List KPIMetric) : List ℚ :=
  (entityKpisOf kpis).map (fun p => dget p.2 "cpc" 0)

theorem allSpend_eq (kpis : List KPIMetric) :
    allSpend kpis = (perEntitySpend kpis).filter (fun x => decide (x > 0)) :=
  filterMap_guard_eq_filter_map
    (fun p : String × List (String × ℚ) => dget p.2 "spend" 0) (entityKpisOf kpis)

theorem allCpc_eq (kpis : List KPIMetric) :
    allCpc kpis = (perEntityCpc kpis).filter (fun x => decide (x > 0)) :=
  filterMap_guard_eq_filter_map
    (fun p : String × List (String × ℚ) => dget p.2 "cpc" 0) (entityKpisOf kpis)

theorem avgSpend_eq (kpis : List KPIMetric) : avgSpend kpis = posMean (perEntitySpend kpis) := by
  unfold avgSpend posMean
  rw [allSpend_eq]
  by_cases h : (perEntitySpend kpis).filter (fun x => decide (x > 0)) = []
  · simp [h]
  · simp [h]

theorem avgCpc_eq (kpis : List KPIMetric) : avgCpc kpis = posMean (perEntityCpc kpis) := by
  unfold avgCpc posMean
  rw [allCpc_eq]
  by_cases h : (perEntityCpc kpis).filter (fun x => decide (x > 0)) = []
  · simp [h]
  · simp [h]

theorem entityKpisOf_append_fresh (kpis : List KPIMetric) (k : KPIMetric)
    (hfresh : k.entity_id ∉ kpis.map (fun x => x.entity_id)) :
    entityKpisOf (kpis ++ [k]) =
      entityKpisOf kpis ++ [(k.entity_id, [(k.name, k.value)])] := by
  have hmemF : dmem (entityKpisOf kpis) k.entity_id = false := by
    by_contra hc
    have hT : dmem (entityKpisOf kpis) k.entity_id = true := by
      simpa using hc
    have h2 := (dmem_iff_keys _ _).mp hT
    have h3 := keysD_foldl_subset
      (fun d k => dset d k.entity_id (dset (dget d k.entity_id []) k.name k.value))
      (fun x : KPIMetric => x.entity_id)
      (fun d a => by
        rw [keysD_dset]
        split
        · exact Or.inl rfl
        · exact Or.inr rfl)
      kpis [] _ h2
    rcases h3 with h4 | h4
    · simp [keysD] at h4
    · exact hfresh h4
  have hfind : dfind (entityKpisOf kpis) k.entity_id = none := by
    have hF := hmemF
    unfold dmem at hF
    cases hd : dfind (entityKpisOf kpis) k.entity_id with
    | none => rfl
    | some v =>
      rw [hd] at hF
      simp at hF
  have hget : dget (entityKpisOf kpis) k.entity_id ([] : List (String × ℚ)) = [] := by
    unfold dget
    rw [hfind]
    rfl
  have hstep : entityKpisOf (kpis ++ [k]) =
      dset (entityKpisOf kpis) k.entity_id
        (dset (dget (entityKpisOf kpis) k.entity_id []) k.name k.value) := by
    unfold entityKpisOf
    rw [List.foldl_append]
    rfl
  rw [hstep, hget, dset_append_of_not_mem _ _ _ hmemF]
  rfl

/-- Claim C7: the two population-relative opportunity thresholds are
derived only from entities with strictly positive values
(`spend_threshold = 0.3 * mean of positive spends`,
`cpc_threshold = 0.7 * mean of positive cpcs`), and an added entity
with `spend = 0` (resp. `cpc = 0`) never shifts the corresponding
threshold. -/
theorem opportunity_thresholds (kpis : List KPIMetric) (k : KPIMetric)
    (hfresh : k.entity_id ∉ kpis.map (fun x => x.entity_id)) :
    compute_opportunities kpis =
      (entityKpisOf kpis).flatMap
        (opportunitiesForEntity (oppEntityNames kpis) (spendThreshold kpis)
          (cpcThreshold kpis)) ∧
    spendThreshold kpis = LOW_SPEND_PERCENTILE * posMean (perEntitySpend kpis) ∧
    cpcThreshold kpis = LOW_CPC_THRESHOLD_FACTOR * posMean (perEntityCpc kpis) ∧
    ((k.name = "spend" → k.value = 0) →
      spendThreshold (kpis ++ [k]) = spendThreshold kpis) ∧
    ((k.name = "cpc" → k.value = 0) →
      cpcThreshold (kpis ++ [k]) = cpcThreshold kpis) := by
  refine ⟨rfl, ?_, ?_, ?_, ?_⟩
  · unfold spendThreshold
    rw [avgSpend_eq, mul_comm]
  · unfold cpcThreshold
    rw [avgCpc_eq, mul_comm]
  · intro himp
    have hall : allSpend (kpis ++ [k]) = allSpend kpis := by
      unfold allSpend
      rw [entityKpisOf_append_fresh kpis k hfresh, List.filterMap_append]
      by_cases hn : k.name = "spend"
      · simp [List.filterMap_cons, dget, dfind, hn, himp hn]
      · simp [List.filterMap_cons, dget, dfind, hn]
    unfold spendThreshold avgSpend
    rw [hall]
  · intro himp
    have hall : allCpc (kpis ++ [k]) = allCpc kpis := by
      unfold allCpc
      rw [entityKpisOf_append_fresh kpis k hfresh, List.filterMap_append]
      by_cases hn : k.name = "cpc"
      · simp [List.filterMap_cons, dget, dfind, hn, himp hn]
      · simp [List.filterMap_cons, dget, dfind, hn]
    unfold cpcThreshold avgCpc
    rw [hall]

def c7Kpis : List KPIMetric :=
  [⟨"spend", 10, "currency", "campaign", "e1", "E1"⟩,
   ⟨"cpc", 2, "currency", "campaign", "e1", "E1"⟩,
   ⟨"spend", 0, "currency", "campaign", "e2", "E2"⟩]

def c7New : KPIMetric := ⟨"spend", 0, "currency", "campaign", "e3", "E3"⟩

theorem opportunity_thresholds_witness :
    (c7New.entity_id ∉ c7Kpis.map (fun x => x.entity_id)) ∧
    (compute_opportunities c7Kpis =
      (entityKpisOf c7Kpis).flatMap
        (opportunitiesForEntity (oppEntityNames c7Kpis) (spendThreshold c7Kpis)
          (cpcThreshold c7Kpis)) ∧
    spendThreshold c7Kpis = LOW_SPEND_PERCENTILE * posMean (perEntitySpend c7Kpis) ∧
    cpcThreshold c7Kpis = LOW_CPC_THRESHOLD_FACTOR * posMean (perEntityCpc c7Kpis) ∧
    ((c7New.name = "spend" → c7New.value = 0) →
      spendThreshold (c7Kpis ++ [c7New]) = spendThreshold c7Kpis) ∧
    ((c7New.name = "cpc" → c7New.value = 0) →
      cpcThreshold (c7Kpis ++ [c7New]) = cpcThreshold c7Kpis)) :=
  ⟨by decide, opportunity_thresholds c7Kpis c7New (by decide)⟩

/-! ## Confidence claims -/

theorem dataCompleteness_unit (store : List NormalizedMetric) (ds de : String) :
    0 ≤ dataCompleteness store ds de ∧ dataCompleteness store ds de ≤ 1 := by
  unfold dataCompleteness
  simp only []
  constructor
  · split
    · rename_i h
      apply le_min
      · apply div_nonneg (Nat.cast_nonneg _)
        exact_mod_cast le_of_lt h
      · norm_num
    · norm_num
  · split
    · exact min_le_right _ _
    · norm_num

theorem sampleSizeFactor_unit (store : List NormalizedMetric) (ds de : String) :
    0 ≤ sampleSizeFactor store ds de ∧ sampleSizeFactor store ds de ≤ 1 := by
  unfold sampleSizeFactor
  constructor
  · apply le_min
    · apply div_nonneg (Nat.cast_nonneg _)
      norm_num
    · norm_num
  · exact min_le_right _ _

theorem metricCoverage_unit (store : List NormalizedMetric) (ds de : String) :
    0 ≤ metricCoverage store ds de ∧ metricCoverage store ds de ≤ 1 := by
  unfold metricCoverage
  constructor
  · apply div_nonneg (Nat.cast_nonneg _)
    norm_num
  · rw [div_le_one (by norm_num)]
    have h := List.length_filter_le
      (fun n => (((confMetrics store ds de).map (fun m => m.metric_name)).contains n))
      ["impressions", "clicks", "spend", "ctr", "cpc"]
    have h5 : (["impressions", "clicks", "spend", "ctr", "cpc"] : List String).length = 5 := rfl
    rw [h5] at h
    exact_mod_cast h

theorem volumeStability_unit (sqrtQ : ℚ → ℚ) (hsq : ∀ q, 0 ≤ q → 0 ≤ sqrtQ q)
    (store : List NormalizedMetric) (ds de : String) :
    0 ≤ volumeStability sqrtQ store ds de ∧ volumeStability sqrtQ store ds de ≤ 1 := by
  unfold volumeStability
  simp only []
  constructor
  · split
    · exact le_max_right _ _
    · norm_num
  · split
    · apply max_le _ (by norm_num)
      rw [sub_le_self_iff]
      split
      · rename_i hmean
        apply div_nonneg _ (le_of_lt hmean)
        apply hsq
        apply div_nonneg _ (Nat.cast_nonneg _)
        apply List.sum_nonneg
        intro x hx
        obtain ⟨v, _, rfl⟩ := List.mem_map.mp hx
        positivity
      · norm_num
    · norm_num

/-- Claim C6: with no normalized metrics in the window the confidence
is exactly `0` with an all-zero breakdown; otherwise the score is the
weighted sum `0.3*completeness + 0.2*sample + 0.3*coverage +
0.2*stability` rounded to 4 decimals; and the score always lies in
`[0, 1]`. -/
theorem confidence_score_spec (sqrtQ : ℚ → ℚ) (store : List NormalizedMetric)
    (ds de : String) (hsq : ∀ q, 0 ≤ q → 0 ≤ sqrtQ q) :
    (confMetrics store ds de = [] →
      _compute_confidence sqrtQ store ds de = (0, ⟨0, 0, 0, 0⟩)) ∧
    (confMetrics store ds de ≠ [] →
      (_compute_confidence sqrtQ store ds de).1 =
        pyRound (dataCompleteness store ds de * (3/10) +
          sampleSizeFactor store ds de * (1/5) +
          metricCoverage store ds de * (3/10) +
          volumeStability sqrtQ store ds de * (1/5)) 4) ∧
    (0 ≤ (_compute_confidence sqrtQ store ds de).1 ∧
      (_compute_confidence sqrtQ store ds de).1 ≤ 1) := by
  refine ⟨?_, ?_, ?_⟩
  · intro h
    unfold _compute_confidence
    rw [if_pos h]
  · intro h
    unfold _compute_confidence
    rw [if_neg h]
  · obtain ⟨hdc0, hdc1⟩ := dataCompleteness_unit store ds de
    obtain ⟨hss0, hss1⟩ := sampleSizeFactor_unit store ds de
    obtain ⟨hmc0, hmc1⟩ := metricCoverage_unit store ds de
    obtain ⟨hvs0, hvs1⟩ := volumeStability_unit sqrtQ hsq store ds de
    unfold _compute_confidence
    split
    · norm_num
    · exact pyRound_mem_unit 4 (by nlinarith) (by nlinarith)

theorem confidence_score_spec_witness :
    (∀ q : ℚ, 0 ≤ q → 0 ≤ (fun _ : ℚ => (0 : ℚ)) q) ∧
    ((confMetrics c1Store "2024-01-08" "2024-01-14" = [] →
      _compute_confidence (fun _ => 0) c1Store "2024-01-08" "2024-01-14" = (0, ⟨0, 0, 0, 0⟩)) ∧
    (confMetrics c1Store "2024-01-08" "2024-01-14" ≠ [] →
      (_compute_confidence (fun _ => 0) c1Store "2024-01-08" "2024-01-14").1 =
        pyRound (dataCompleteness c1Store "2024-01-08" "2024-01-14" * (3/10) +
          sampleSizeFactor c1Store "2024-01-08" "2024-01-14" * (1/5) +
          metricCoverage c1Store "2024-01-08" "2024-01-14" * (3/10) +
          volumeStability (fun _ => 0) c1Store "2024-01-08" "2024-01-14" * (1/5)) 4) ∧
    (0 ≤ (_compute_confidence (fun _ => 0) c1Store "2024-01-08" "2024-01-14").1 ∧
      (_compute_confidence (fun _ => 0) c1Store "2024-01-08" "2024-01-14").1 ≤ 1)) :=
  ⟨fun _ _ => le_refl 0,
   confidence_score_spec (fun _ => 0) c1Store "2024-01-08" "2024-01-14" (fun _ _ => le_refl 0)⟩

/-! ## Normalizer claims -/

/-- Values on which `float()` raises (`None`, non-numeric strings,
nested lists/dicts) and which `_safe_float` coerces to `0.0`. -/
def nonNumeric : PyVal → Bool
  | .none => true
  | .str _ => true
  | .listv => true
  | _ => false

theorem directFold_skip (fields : List (String × PyVal)) (names : List String) :
    ∀ (acc : List (String × ℚ)) (name : String), name ∉ names →
      dfind (names.foldl
        (fun acc nm =>
          match dfind fields nm with
          | some v => dset acc nm (_safe_float v)
          | none => acc) acc) name = dfind acc name := by
  induction names with
  | nil => intro acc name _; rfl
  | cons n ns ih =>
    intro acc name h
    simp only [List.foldl_cons]
    have hne : n ≠ name := fun hc => h (hc ▸ List.mem_cons_self n ns)
    rw [ih _ name (fun hc => h (List.mem_cons_of_mem _ hc))]
    cases hd : dfind fields n with
    | none => rfl
    | some v => exact dfind_dset_other _ _ _ _ hne

theorem directFold_mem (fields : List (String × PyVal)) (names : List String) :
    ∀ (acc : List (String × ℚ)) (name : String) (v : PyVal), names.Nodup →
      name ∈ names → dfind fields name = some v →
      dfind (names.foldl
        (fun acc nm =>
          match dfind fields nm with
          | some v => dset acc nm (_safe_float v)
          | none => acc) acc) name = some (_safe_float v) := by
  induction names with
  | nil => intro acc name v _ h _; simp at h
  | cons n ns ih =>
    intro acc name v hnd hmem hf
    simp only [List.foldl_cons]
    rcases List.mem_cons.mp hmem with rfl | hmem2
    · rw [directFold_skip fields ns _ name (List.nodup_cons.mp hnd).1]
      rw [hf]
      exact dfind_dset_self _ _ _
    · exact ih _ name v (List.nodup_cons.mp hnd).2 hmem2 hf

theorem directFold_none (fields : List (String × PyVal)) (names : List String) :
    ∀ (acc : List (String × ℚ)) (name : String), dfind fields name = none →
      dfind (names.foldl
        (fun acc nm =>
          match dfind fields nm with
          | some v => dset acc nm (_safe_float v)
          | none => acc) acc) name = dfind acc name := by
  induction names with
  | nil => intro acc name _; rfl
  | cons n ns ih =>
    intro acc name hf
    simp only [List.foldl_cons]
    rw [ih _ name hf]
    by_cases hn : n = name
    · subst hn
      rw [hf]
    · cases hd : dfind fields n with
      | none => rfl
      | some v => exact dfind_dset_other _ _ _ _ hn

def c9Row : Row :=
  ⟨[("campaign_id", .str "c1"), ("campaign_name", .str "C1"),
    ("date_start", .str "2024-01-08"), ("clicks", .num 5)],
   [], [], [], [], [], []⟩

/-- Claim C9, counterexample: a raw row in which the direct-mapped
field `impressions` is missing entirely yields NO normalized
`impressions` record at all — the missing value is skipped, not
coerced to `0.0`. -/
theorem normalizer_missing_field_counterexample :
    ("impressions" ∈ DIRECT_METRICS) ∧
    dfind c9Row.fields "impressions" = none ∧
    ((transform_insights [c9Row] "campaign" []).1.map (fun r => r.metric_name)) = ["clicks"] ∧
    ¬ ((⟨"meta", "campaign", "c1", "C1", "2024-01-08", "impressions", 0, "volume"⟩ :
      NormalizedMetric) ∈ (transform_insights [c9Row] "campaign" []).1) := by
  decide

/-- Claim C9 (amended): for every raw row and direct-mapped numeric
field, a present value is coerced through `_safe_float` (so a
non-numeric value becomes `0.0` and extraction never fails), while a
field absent from the row is skipped — no metric is emitted for it. -/
theorem normalizer_direct_coercion (row : Row) (name : String) (v : PyVal) :
    (name ∈ DIRECT_METRICS → dfind row.fields name = some v →
      dfind (directMetrics row) name = some (_safe_float v)) ∧
    (dfind row.fields name = none → dfind (directMetrics row) name = none) ∧
    (nonNumeric v = true → _safe_float v = 0) := by
  refine ⟨?_, ?_, ?_⟩
  · intro hmem hf
    unfold directMetrics
    exact directFold_mem row.fields DIRECT_METRICS [] name v (by decide) hmem hf
  · intro hf
    unfold directMetrics
    rw [directFold_none row.fields DIRECT_METRICS [] name hf]
    rfl
  · intro hv
    cases v <;> simp_all [nonNumeric, _safe_float]

def c9Row2 : Row := ⟨[("impressions", .str "garbage")], [], [], [], [], [], []⟩

theorem normalizer_direct_coercion_witness :
    ("impressions" ∈ DIRECT_METRICS) ∧
    dfind c9Row2.fields "impressions" = some (.str "garbage") ∧
    dfind (directMetrics c9Row2) "impressions" = some (_safe_float (.str "garbage")) :=
  ⟨by decide, by decide,
   (normalizer_direct_coercion c9Row2 "impressions" (.str "garbage")).1 (by decide) (by decide)⟩

/-! ## Idempotence of normalization (Metric Store upserts) -/

theorem nmKey_upsertRec (x r : NormalizedMetric) : nmKey (upsertRec x r) = nmKey x := rfl

theorem upsert_mem (s : List NormalizedMetric) (r : NormalizedMetric)
    (h : nmKey r ∈ s.map nmKey) :
    (upsert s r).2 = false ∧ (upsert s r).1.map nmKey = s.map nmKey := by
  induction s with
  | nil => simp at h
  | cons x xs ih =>
    by_cases hx : nmKey x = nmKey r
    · simp [upsert, hx, nmKey_upsertRec]
    · have h2 : nmKey r ∈ xs.map nmKey := by
        rcases List.mem_cons.mp h with h3 | h3
        · exact absurd h3.symm hx
        · exact h3
      obtain ⟨ih1, ih2⟩ := ih h2
      simp [upsert, hx, ih1, ih2]

theorem upsert_not_mem (s : List NormalizedMetric) (r : NormalizedMetric)
    (h : nmKey r ∉ s.map nmKey) :
    (upsert s r).2 = true ∧ (upsert s r).1.map nmKey = s.map nmKey ++ [nmKey r] := by
  induction s with
  | nil => simp [upsert]
  | cons x xs ih =>
    have hx : nmKey x ≠ nmKey r := by
      intro hc
      exact h (by simp [← hc])
    have h2 : nmKey r ∉ xs.map nmKey := fun hc => h (List.mem_cons_of_mem _ hc)
    obtain ⟨ih1, ih2⟩ := ih h2
    simp [upsert, hx, ih1, ih2]

theorem upsert_key_mono (s : List NormalizedMetric) (r : NormalizedMetric) (k) 
    (h : k ∈ s.map nmKey) : k ∈ (upsert s r).1.map nmKey := by
  by_cases hr : nmKey r ∈ s.map nmKey
  · rw [(upsert_mem s r hr).2]
    exact h
  · rw [(upsert_not_mem s r hr).2]
    exact List.mem_append_left _ h

theorem upsert_key_self (s : List NormalizedMetric) (r : NormalizedMetric) :
    nmKey r ∈ (upsert s r).1.map nmKey := by
  by_cases hr : nmKey r ∈ s.map nmKey
  · rw [(upsert_mem s r hr).2]
    exact hr
  · rw [(upsert_not_mem s r hr).2]
    exact List.mem_append_right _ (by simp)

theorem applyUpserts_key_mono (rs : List NormalizedMetric) :
    ∀ (s : List NormalizedMetric) (k), k ∈ s.map nmKey →
      k ∈ (applyUpserts s rs).1.map nmKey := by
  induction rs with
  | nil => intro s k h; exact h
  | cons r rs ih =>
    intro s k h
    exact ih _ _ (upsert_key_mono s r k h)

theorem applyUpserts_absorbs (rs : List NormalizedMetric) :
    ∀ (s : List NormalizedMetric) (r : NormalizedMetric), r ∈ rs →
      nmKey r ∈ (applyUpserts s rs).1.map nmKey := by
  induction rs with
  | nil => intro s r h; simp at h
  | cons r0 rs ih =>
    intro s r h
    rcases List.mem_cons.mp h with rfl | h2
    · exact applyUpserts_key_mono rs _ _ (upsert_key_self s r)
    · exact ih _ r h2

theorem applyUpserts_all_present (rs : List NormalizedMetric) :
    ∀ (s : List NormalizedMetric), (∀ r ∈ rs, nmKey r ∈ s.map nmKey) →
      (applyUpserts s rs).2 = 0 ∧ (applyUpserts s rs).1.map nmKey = s.map nmKey := by
  induction rs with
  | nil => intro s _; exact ⟨rfl, rfl⟩
  | cons r rs ih =>
    intro s h
    have hr : nmKey r ∈ s.map nmKey := h r (List.mem_cons_self r rs)
    obtain ⟨h1, h2⟩ := upsert_mem s r hr
    have hrest : ∀ x ∈ rs, nmKey x ∈ (upsert s r).1.map nmKey := by
      intro x hx
      rw [h2]
      exact h x (List.mem_cons_of_mem _ hx)
    obtain ⟨ih1, ih2⟩ := ih _ hrest
    refine ⟨?_, ?_⟩
    · show (if (upsert s r).2 then 1 else 0) + (applyUpserts (upsert s r).1 rs).2 = 0
      rw [h1, ih1]
      simp
    · show (applyUpserts (upsert s r).1 rs).1.map nmKey = s.map nmKey
      rw [ih2, h2]

theorem upsert_nodup (s : List NormalizedMetric) (r : NormalizedMetric)
    (h : (s.map nmKey).Nodup) : ((upsert s r).1.map nmKey).Nodup := by
  by_cases hr : nmKey r ∈ s.map nmKey
  · rw [(upsert_mem s r hr).2]
    exact h
  · rw [(upsert_not_mem s r hr).2]
    simp [List.nodup_append, h, hr]

theorem applyUpserts_nodup (rs : List NormalizedMetric) :
    ∀ (s : List NormalizedMetric), (s.map nmKey).Nodup →
      ((applyUpserts s rs).1.map nmKey).Nodup := by
  induction rs with
  | nil => intro s h; exact h
  | cons r rs ih =>
    intro s h
    exact ih _ (upsert_nodup s r h)

/-- Claim C3: normalization is idempotent over the Metric Store.
Starting from a store whose composite keys
`(source, entity_type, entity_id, date, metric_name)` are unique, a
run of `transform_insights` keeps them unique, and a second run on
identical raw input creates no new records and leaves the store with
exactly the same keys in the same positions (it only overwrites
`metric_value` / `entity_name` / `metric_type` of existing records,
never duplicating). -/
theorem transform_insights_idempotent (raw_data : List Row) (level : String)
    (store : List NormalizedMetric) (h : (store.map nmKey).Nodup) :
    (transform_insights raw_data level
      (transform_insights raw_data level store).1).2 = 0 ∧
    (transform_insights raw_data level
      (transform_insights raw_data level store).1).1.map nmKey =
      (transform_insights raw_data level store).1.map nmKey ∧
    ((transform_insights raw_data level store).1.map nmKey).Nodup := by
  have habs : ∀ r ∈ raw_data.flatMap (rowRecords level),
      nmKey r ∈ (transform_insights raw_data level store).1.map nmKey := by
    intro r hr
    exact applyUpserts_absorbs _ store r hr
  obtain ⟨h1, h2⟩ := applyUpserts_all_present (raw_data.flatMap (rowRecords level))
    (transform_insights raw_data level store).1 habs
  exact ⟨h1, h2, applyUpserts_nodup _ store h⟩

def c3Row : Row :=
  ⟨[("campaign_id", .str "c1"), ("campaign_name", .str "C1"),
    ("date_start", .str "2024-01-08"), ("impressions", .numStr "1000" 1000),
    ("clicks", .none)],
   [⟨"purchase", some (.num 3)⟩, ⟨"offsite_conversion.fb_pixel_purchase", some (.num 2)⟩],
   [⟨"purchase", some (.numStr "99.5" (199/2))⟩], [], [], [], []⟩

theorem transform_insights_idempotent_witness :
    ((([] : List NormalizedMetric).map nmKey).Nodup) ∧
    ((transform_insights [c3Row] "campaign"
        (transform_insights [c3Row] "campaign" []).1).2 = 0 ∧
      (transform_insights [c3Row] "campaign"
        (transform_insights [c3Row] "campaign" []).1).1.map nmKey =
        (transform_insights [c3Row] "campaign" []).1.map nmKey ∧
      ((transform_insights [c3Row] "campaign" []).1.map nmKey).Nodup) :=
  ⟨by decide, transform_insights_idempotent [c3Row] "campaign" [] (by decide)⟩
